import Mathlib

/-!
Verification development for the RadioManager peer-to-peer secure radio
link layer (RadioManager.cpp / SimpleCha2.cpp / Base64.h).

Bytes are modelled as `List Nat` with each element a byte value < 256 where
it matters.  `std::vector<uint8_t>` operations map to list operations;
fixed-width machine integers are modelled as `Nat` with explicit `% 2^w`
at the points where the source stores into a fixed-width field.

External collaborators (the RF24 radio driver, the ChaCha20 stream cipher,
the X25519 primitive, ArduinoJson's text serializer and the entropy source)
are out of scope for the library itself; they enter the model as explicit
parameters: the ChaCha20 keystream as a function `ks : key → nonce →
position → byte` applied by XOR (the only property of ChaCha used by the
source is that encryption and decryption XOR the same keystream), X25519 as
a function parameter, random IVs and radio write results as inputs, and
JSON documents at the parsed-tree level (ArduinoJson's serialize/parse text
round trip is the identity on documents).
-/

namespace RadioSpec

/-! ## Constants (RadioManager.h) -/

def MAX_PACKET_SIZE : Nat := 32
def HEADER_SIZE : Nat := 3
/-- payload bytes per fragment: MAX_PACKET_SIZE - HEADER_SIZE (RadioManager.cpp:731) -/
def PAYLOAD_SIZE : Nat := 29
def MAX_MSG_SIZE : Nat := 2048
def MAX_PACKETS_RCV : Nat := 100
def MAX_MAILBOX_MSG : Nat := 3
def MAX_CHANNELS : Nat := 5
def KEY_SIZE : Nat := 32
/-- ASCII 'M' -/
def START_CODE : Nat := 77
/-- ASCII 'C' -/
def CONTINUE_CODE : Nat := 67
def RECEIVE_TIMEOUT : Nat := 1000
def PAIRING_TIMEOUT : Nat := 10000
def PAIRING_INTERVAL : Nat := 250
def PAIRING_LISTEN_TIME : Nat := 5000
/-- 2^32, the range of a uint32_t counter -/
def U32 : Nat := 4294967296
/-- 2^16, the range of a uint16_t header field -/
def U16 : Nat := 65536

/-! ## pad / unpad (RadioManager.cpp:1200-1218) -/

/-- `RadioManager::pad`: fill with trailing zero bytes up to `n`
(or truncate down to `n`). -/
def pad (payload : List Nat) (n : Nat) : List Nat :=
  if payload.length < n then payload ++ List.replicate (n - payload.length) 0
  else payload.take n

/-- `RadioManager::unpad`: remove all trailing zero bytes. -/
def unpad (payload : List Nat) : List Nat :=
  (payload.reverse.dropWhile (fun b => b == 0)).reverse

/-! ## Fragmentation (RadioManager::sendData, RadioManager.cpp:730-779) -/

/-- `totalFragments` as computed at RadioManager.cpp:733. -/
def totalFragments (len : Nat) : Nat := (len + PAYLOAD_SIZE - 1) / PAYLOAD_SIZE

/-- The value assigned to the uint16 `header.index` field when the send
loop is at byte offset `idx` of a message of length `len`
(RadioManager.cpp:743-749), before the uint16 store truncation. -/
def fragIndexVal (len idx : Nat) : Nat :=
  if idx == 0 then totalFragments len - 1
  else if len - idx ≤ PAYLOAD_SIZE then 0
  else totalFragments len - 1 - idx / PAYLOAD_SIZE

/-- The 32-byte packet emitted by one `sendData` tick at byte offset `idx`:
1-byte code, 2-byte little-endian index (uint16 store), payload slice,
zero padding to 32 bytes (RadioManager.cpp:735-756). -/
def fragAt (msg : List Nat) (idx : Nat) : List Nat :=
  let v := fragIndexVal msg.length idx % U16
  let code := if idx == 0 then START_CODE else CONTINUE_CODE
  let payload := (msg.drop idx).take PAYLOAD_SIZE
  pad ([code, v % 256, v / 256 % 256] ++ payload) MAX_PACKET_SIZE

/-- The sequence of packets emitted by repeated `sendData` ticks, starting
from `outgoingMsgIndex = idx`: each tick emits the packet for the current
offset and advances the offset by `min PAYLOAD_SIZE remaining`
(RadioManager.cpp:737,767). -/
def sendLoopAux (msg : List Nat) (idx : Nat) : List (List Nat) :=
  if _h : idx < msg.length then
    fragAt msg idx :: sendLoopAux msg (idx + min PAYLOAD_SIZE (msg.length - idx))
  else []
termination_by msg.length - idx
decreasing_by
  simp only [PAYLOAD_SIZE]
  omega

/-- All fragments of an outgoing message (offsets start at 0,
RadioManager.cpp:271). -/
def sendFragments (msg : List Nat) : List (List Nat) := sendLoopAux msg 0

/-! ## Reassembly (RadioManager::receiveData, RadioManager.cpp:786-868)

The reassembly part of `receiveData`: the static locals `lastReceiveTime`,
`expectedFragments`, `receivedFragments` together with the member
`rxBuffer` form the state.  One call processes one packet read from the
radio at wall-clock time `now` and possibly completes a message (which the
source then hands to the decryption/mailbox stage). -/

structure RxState where
  rxBuffer : List Nat
  expectedFragments : Nat
  receivedFragments : Nat
  lastReceiveTime : Nat
deriving Repr, DecidableEq

def RxState.init : RxState := ⟨[], 0, 0, 0⟩

/-- The stale-partial-message check at RadioManager.cpp:860-865. -/
def applyRxTimeout (s : RxState) (now : Nat) : RxState :=
  if s.rxBuffer ≠ [] ∧ now - s.lastReceiveTime > RECEIVE_TIMEOUT then
    { s with rxBuffer := [], expectedFragments := 0, receivedFragments := 0 }
  else s

/-- One `receiveData` call's reassembly on a 32-byte packet.  Returns the
new state and the completed message buffer when the final fragment
(index 0) arrives with matching fragment count.

The header is memcpy'd from `packet.data()` after `unpad`
(RadioManager.cpp:801-804); `unpad` only pops from the logical end of the
vector, so those three bytes are the first three bytes of the packet as
read from the radio, which is how they are taken here.  `header.index` and
the static counters are uint16 (hence the `% U16` at the stores). -/
def rxStep (s : RxState) (now : Nat) (packet32 : List Nat) : RxState × Option (List Nat) :=
  if HEADER_SIZE ≤ packet32.length ∧ packet32.length ≤ MAX_PACKET_SIZE then
    let packet := unpad packet32
    let code := packet32.getD 0 0
    let idx := packet32.getD 1 0 + 256 * packet32.getD 2 0
    let s1 := if code == START_CODE then
        { s with rxBuffer := [], expectedFragments := (idx + 1) % U16,
                 receivedFragments := 0 }
      else s
    let s2 := if s1.receivedFragments < MAX_PACKETS_RCV then
        { s1 with rxBuffer := s1.rxBuffer ++ packet.drop HEADER_SIZE,
                  lastReceiveTime := now,
                  receivedFragments := s1.receivedFragments + 1 }
      else s1
    if idx == 0 then
      let out := if s2.receivedFragments == s2.expectedFragments then
          some s2.rxBuffer else none
      (applyRxTimeout
        { s2 with rxBuffer := [], expectedFragments := 0, receivedFragments := 0 } now,
       out)
    else (applyRxTimeout s2 now, none)
  else (applyRxTimeout s now, none)

/-- Feed a list of `(now, packet)` pairs through `rxStep`, collecting the
completed messages in order. -/
def rxRun (s : RxState) : List (Nat × List Nat) → RxState × List (List Nat)
  | [] => (s, [])
  | (t, p) :: rest =>
    let sp := rxStep s t p
    let rp := rxRun sp.1 rest
    (rp.1, sp.2.toList ++ rp.2)

/-- The payload slice of the fragment at byte offset `PAYLOAD_SIZE * k`. -/
def sliceK (msg : List Nat) (k : Nat) : List Nat :=
  (msg.drop (PAYLOAD_SIZE * k)).take PAYLOAD_SIZE

/-- Every fragment's payload ends in a nonzero byte.  This is the condition
under which `unpad` on the receiving side removes exactly the packet
padding and nothing of the payload. -/
def fragsLastNonzero (msg : List Nat) : Prop :=
  ∀ k < totalFragments msg.length, (sliceK msg k).getLast? ≠ some 0

instance (msg : List Nat) : Decidable (fragsLastNonzero msg) := by
  unfold fragsLastNonzero
  infer_instance

/-! ### Shape lemmas for fragments -/

lemma pad_of_le (l : List Nat) (n : Nat) (h : l.length ≤ n) :
    pad l n = l ++ List.replicate (n - l.length) 0 := by
  unfold pad
  rcases Nat.lt_or_ge l.length n with hlt | hge
  · rw [if_pos hlt]
  · have he : l.length = n := Nat.le_antisymm h hge
    rw [if_neg (by omega)]
    simp [he, List.take_of_length_le (Nat.le_of_eq he)]

lemma sliceK_length (msg : List Nat) (k : Nat) :
    (sliceK msg k).length = min PAYLOAD_SIZE (msg.length - PAYLOAD_SIZE * k) := by
  simp [sliceK, Nat.min_comm]

lemma cons3_pad (a b c : Nat) (l : List Nat) (h : l.length ≤ PAYLOAD_SIZE) :
    pad ([a, b, c] ++ l) MAX_PACKET_SIZE =
      a :: b :: c :: (l ++ List.replicate (PAYLOAD_SIZE - l.length) 0) := by
  rw [pad_of_le]
  · have h1 : ([a, b, c] ++ l).length = l.length + 3 := by simp
    rw [h1]
    have h2 : MAX_PACKET_SIZE - (l.length + 3) = PAYLOAD_SIZE - l.length := by
      simp only [MAX_PACKET_SIZE, PAYLOAD_SIZE]; omega
    rw [h2]
    simp
  · simp only [MAX_PACKET_SIZE, PAYLOAD_SIZE] at h ⊢
    simp
    omega

lemma fragAt_shape (msg : List Nat) (k : Nat) :
    fragAt msg (PAYLOAD_SIZE * k) =
      (if PAYLOAD_SIZE * k == 0 then START_CODE else CONTINUE_CODE) ::
      (fragIndexVal msg.length (PAYLOAD_SIZE * k) % U16) % 256 ::
      (fragIndexVal msg.length (PAYLOAD_SIZE * k) % U16) / 256 % 256 ::
      (sliceK msg k ++ List.replicate (PAYLOAD_SIZE - (sliceK msg k).length) 0) := by
  have hlen : (sliceK msg k).length ≤ PAYLOAD_SIZE := by
    rw [sliceK_length]; omega
  unfold fragAt
  exact cons3_pad _ _ _ _ hlen

lemma fragAt_length (msg : List Nat) (k : Nat) :
    (fragAt msg (PAYLOAD_SIZE * k)).length = MAX_PACKET_SIZE := by
  rw [fragAt_shape]
  have hlen : (sliceK msg k).length ≤ PAYLOAD_SIZE := by
    rw [sliceK_length]; omega
  simp only [List.length_cons, List.length_append, List.length_replicate,
    MAX_PACKET_SIZE, PAYLOAD_SIZE] at hlen ⊢
  omega

/-! ### unpad on a padded header-and-payload packet -/

lemma dropWhile_zero_replicate (n : Nat) (l : List Nat) :
    List.dropWhile (fun b => b == 0) (List.replicate n 0 ++ l) =
      List.dropWhile (fun b => b == 0) l := by
  induction n with
  | zero => simp
  | succ m ih => simp [List.replicate_succ, List.dropWhile_cons, ih]

lemma unpad_padded (xs ys : List Nat) (n : Nat) (hys : ys ≠ [])
    (hlast : ys.getLast? ≠ some 0) :
    unpad (xs ++ ys ++ List.replicate n 0) = xs ++ ys := by
  rcases List.eq_nil_or_concat ys with rfl | ⟨zs, b, rfl⟩
  · exact absurd rfl hys
  have hb : b ≠ 0 := by
    intro h
    exact hlast (by simp [h])
  unfold unpad
  simp only [List.concat_eq_append]
  rw [List.reverse_append, List.reverse_append, List.reverse_replicate,
    dropWhile_zero_replicate, List.reverse_append]
  simp only [List.reverse_cons, List.reverse_nil, List.nil_append, List.cons_append,
    List.dropWhile_cons]
  rw [if_neg (by simp [hb])]
  simp

/-! ### Unfolding the send loop -/

lemma sendLoopAux_nil (msg : List Nat) (idx : Nat) (h : msg.length ≤ idx) :
    sendLoopAux msg idx = [] := by
  rw [sendLoopAux, dif_neg (by omega)]

lemma sendLoopAux_unfold (msg : List Nat) (k : Nat)
    (h : PAYLOAD_SIZE * k < msg.length) :
    sendLoopAux msg (PAYLOAD_SIZE * k) =
      fragAt msg (PAYLOAD_SIZE * k) :: sendLoopAux msg (PAYLOAD_SIZE * (k + 1)) := by
  rw [sendLoopAux, dif_pos h]
  congr 1
  rcases Nat.lt_or_ge msg.length (PAYLOAD_SIZE * (k + 1)) with hlt | hge
  · have h1 : PAYLOAD_SIZE * k + min PAYLOAD_SIZE (msg.length - PAYLOAD_SIZE * k) =
        msg.length := by
      simp only [PAYLOAD_SIZE] at *; omega
    rw [h1, sendLoopAux_nil _ _ (le_refl _), sendLoopAux_nil _ _ (le_of_lt hlt)]
  · have h1 : PAYLOAD_SIZE * k + min PAYLOAD_SIZE (msg.length - PAYLOAD_SIZE * k) =
        PAYLOAD_SIZE * (k + 1) := by
      simp only [PAYLOAD_SIZE] at *; omega
    rw [h1]

lemma sendLoopAux_getD (msg : List Nat) :
    ∀ i j, PAYLOAD_SIZE * (j + i) < msg.length →
      (sendLoopAux msg (PAYLOAD_SIZE * j)).getD i [] = fragAt msg (PAYLOAD_SIZE * (j + i)) := by
  intro i
  induction i with
  | zero =>
    intro j h
    simp only [Nat.add_zero] at h ⊢
    rw [sendLoopAux_unfold _ _ h]
    rfl
  | succ i ih =>
    intro j h
    have hj : PAYLOAD_SIZE * j < msg.length := by
      simp only [PAYLOAD_SIZE] at *; omega
    rw [sendLoopAux_unfold _ _ hj]
    have e : j + 1 + i = j + (i + 1) := by omega
    have := ih (j + 1) (by rw [e]; exact h)
    simpa [e] using this

lemma sendLoopAux_length (msg : List Nat) :
    ∀ n j, msg.length - PAYLOAD_SIZE * j = n →
      (sendLoopAux msg (PAYLOAD_SIZE * j)).length = totalFragments msg.length - j := by
  intro n
  induction n using Nat.strong_induction_on with
  | _ n ih =>
    intro j hn
    rcases Nat.lt_or_ge (PAYLOAD_SIZE * j) msg.length with hlt | hge
    · rw [sendLoopAux_unfold _ _ hlt, List.length_cons]
      have hrec := ih (msg.length - PAYLOAD_SIZE * (j + 1))
        (by simp only [PAYLOAD_SIZE] at *; omega) (j + 1) rfl
      rw [hrec]
      simp only [totalFragments, PAYLOAD_SIZE] at *
      omega
    · rw [sendLoopAux_nil _ _ hge]
      simp only [List.length_nil, totalFragments, PAYLOAD_SIZE] at *
      omega

lemma sendFragments_length (msg : List Nat) :
    (sendFragments msg).length = totalFragments msg.length := by
  have := sendLoopAux_length msg (msg.length - PAYLOAD_SIZE * 0) 0 rfl
  simpa [sendFragments] using this

lemma sendFragments_getD (msg : List Nat) (k : Nat)
    (h : PAYLOAD_SIZE * k < msg.length) :
    (sendFragments msg).getD k [] = fragAt msg (PAYLOAD_SIZE * k) := by
  have := sendLoopAux_getD msg k 0 (by simpa using h)
  simpa [sendFragments] using this

/-! ### Evaluating one reassembly step on a well-formed fragment -/

lemma sliceK_ne_nil (msg : List Nat) (k : Nat) (h : PAYLOAD_SIZE * k < msg.length) :
    sliceK msg k ≠ [] := by
  have hl : 0 < (sliceK msg k).length := by
    rw [sliceK_length]
    simp only [PAYLOAD_SIZE] at *
    omega
  exact List.ne_nil_of_length_pos hl

lemma rxStep_eval (s : RxState) (t code lo hi : Nat) (payload : List Nat)
    (hplen : payload.length ≤ PAYLOAD_SIZE) (hpne : payload ≠ [])
    (hpl : payload.getLast? ≠ some 0) :
    rxStep s t
      (code :: lo :: hi :: (payload ++ List.replicate (PAYLOAD_SIZE - payload.length) 0)) =
      (let idx := lo + 256 * hi
       let s1 := if code == START_CODE then { s with rxBuffer := [], expectedFragments := (idx + 1) % U16, receivedFragments := 0 } else s
       let s2 := if s1.receivedFragments < MAX_PACKETS_RCV then { s1 with rxBuffer := s1.rxBuffer ++ payload, lastReceiveTime := t, receivedFragments := s1.receivedFragments + 1 } else s1
       if idx == 0 then
         (applyRxTimeout { s2 with rxBuffer := [], expectedFragments := 0, receivedFragments := 0 } t,
          if s2.receivedFragments == s2.expectedFragments then some s2.rxBuffer else none)
       else (applyRxTimeout s2 t, none)) := by
  have hlen32 : (code :: lo :: hi ::
      (payload ++ List.replicate (PAYLOAD_SIZE - payload.length) 0)).length =
      MAX_PACKET_SIZE := by
    simp only [List.length_cons, List.length_append, List.length_replicate,
      PAYLOAD_SIZE, MAX_PACKET_SIZE] at hplen ⊢
    omega
  have hunpad : unpad (code :: lo :: hi ::
      (payload ++ List.replicate (PAYLOAD_SIZE - payload.length) 0)) =
      [code, lo, hi] ++ payload := by
    have h := unpad_padded [code, lo, hi] payload (PAYLOAD_SIZE - payload.length) hpne hpl
    simpa using h
  unfold rxStep
  rw [if_pos]
  · rw [hunpad]
    rfl
  · constructor
    · rw [hlen32]; simp [HEADER_SIZE, MAX_PACKET_SIZE]
    · rw [hlen32]

lemma totalFragments_le (len : Nat) (h : len ≤ 2060) : totalFragments len ≤ 72 := by
  simp only [totalFragments, PAYLOAD_SIZE]
  omega

/-- Reassembly of the first fragment of a single-fragment message:
it completes the message immediately. -/
lemma rxStep_start_single (msg : List Nat) (s : RxState) (t : Nat)
    (h0 : 0 < msg.length) (hle : msg.length ≤ PAYLOAD_SIZE)
    (hz : (sliceK msg 0).getLast? ≠ some 0) :
    rxStep s t (fragAt msg (PAYLOAD_SIZE * 0)) = (⟨[], 0, 0, t⟩, some msg) := by
  have hF : totalFragments msg.length = 1 := by
    simp only [totalFragments, PAYLOAD_SIZE] at *
    omega
  have hplen : (sliceK msg 0).length ≤ PAYLOAD_SIZE := by
    rw [sliceK_length]; omega
  have hpne : sliceK msg 0 ≠ [] := sliceK_ne_nil _ _ (by simpa using h0)
  have hsl : sliceK msg 0 = msg := by
    simp only [sliceK, Nat.mul_zero, List.drop_zero]
    exact List.take_of_length_le hle
  rw [fragAt_shape]
  have hcode : (if PAYLOAD_SIZE * 0 == 0 then START_CODE else CONTINUE_CODE) = START_CODE := by
    norm_num
  have hv : fragIndexVal msg.length (PAYLOAD_SIZE * 0) % U16 = 0 := by
    simp only [Nat.mul_zero, fragIndexVal, beq_self_eq_true, if_true, hF, U16]
  rw [hcode, hv]
  norm_num
  rw [rxStep_eval s t START_CODE 0 0 (sliceK msg 0) hplen hpne hz]
  simp [applyRxTimeout, U16, MAX_PACKETS_RCV, RECEIVE_TIMEOUT, hsl]

/-- Reassembly of the first fragment of a multi-fragment message:
the buffer is reset and primed with the first payload slice. -/
lemma rxStep_start_multi (msg : List Nat) (s : RxState) (t : Nat)
    (hgt : PAYLOAD_SIZE < msg.length) (hlen : msg.length ≤ 2060)
    (hz : (sliceK msg 0).getLast? ≠ some 0) :
    rxStep s t (fragAt msg (PAYLOAD_SIZE * 0)) =
      (⟨msg.take PAYLOAD_SIZE, totalFragments msg.length, 1, t⟩, none) := by
  have hF : 2 ≤ totalFragments msg.length := by
    simp only [totalFragments, PAYLOAD_SIZE] at *
    omega
  have hF72 : totalFragments msg.length ≤ 72 := totalFragments_le _ hlen
  have hplen : (sliceK msg 0).length ≤ PAYLOAD_SIZE := by
    rw [sliceK_length]; omega
  have hpne : sliceK msg 0 ≠ [] := sliceK_ne_nil _ _ (by simp only [PAYLOAD_SIZE] at *; omega)
  have hsl : sliceK msg 0 = msg.take PAYLOAD_SIZE := by
    simp [sliceK]
  rw [fragAt_shape]
  have hcode : (if PAYLOAD_SIZE * 0 == 0 then START_CODE else CONTINUE_CODE) = START_CODE := by
    norm_num
  have hv : fragIndexVal msg.length (PAYLOAD_SIZE * 0) % U16 = totalFragments msg.length - 1 := by
    simp only [Nat.mul_zero, fragIndexVal, beq_self_eq_true, if_true, U16]
    omega
  have hlo : (totalFragments msg.length - 1) % 256 = totalFragments msg.length - 1 := by omega
  have hhi : (totalFragments msg.length - 1) / 256 % 256 = 0 := by omega
  rw [hcode, hv, hlo, hhi]
  rw [rxStep_eval s t START_CODE (totalFragments msg.length - 1) 0 (sliceK msg 0) hplen hpne hz]
  have hne0 : ((totalFragments msg.length - 1 + 256 * 0) == 0) = false := by
    simp only [Nat.mul_zero, Nat.add_zero, beq_eq_false_iff_ne, ne_eq]
    omega
  have hexp : (totalFragments msg.length - 1 + 256 * 0 + 1) % U16 = totalFragments msg.length := by
    simp only [U16]
    omega
  simp only [beq_self_eq_true, if_true, hne0, hexp, MAX_PACKETS_RCV, if_false,
    Bool.false_eq_true, reduceIte]
  simp [applyRxTimeout, RECEIVE_TIMEOUT, hsl]

/-- Reassembly of a middle fragment (neither first nor last): the payload
slice is appended and the counters advance. -/
lemma rxStep_mid (msg : List Nat) (s : RxState) (t k : Nat)
    (hk : 1 ≤ k) (hmid : PAYLOAD_SIZE * (k + 1) < msg.length)
    (hlen : msg.length ≤ 2060) (hz : (sliceK msg k).getLast? ≠ some 0)
    (hbuf : s.rxBuffer = msg.take (PAYLOAD_SIZE * k))
    (hexp : s.expectedFragments = totalFragments msg.length)
    (hrecv : s.receivedFragments = k) :
    rxStep s t (fragAt msg (PAYLOAD_SIZE * k)) =
      (⟨msg.take (PAYLOAD_SIZE * (k + 1)), totalFragments msg.length, k + 1, t⟩, none) := by
  have hF72 : totalFragments msg.length ≤ 72 := totalFragments_le _ hlen
  have hkF : k + 2 ≤ totalFragments msg.length := by
    simp only [totalFragments, PAYLOAD_SIZE] at *
    omega
  have hlt : PAYLOAD_SIZE * k < msg.length := by
    simp only [PAYLOAD_SIZE] at *
    omega
  have hplen : (sliceK msg k).length ≤ PAYLOAD_SIZE := by
    rw [sliceK_length]; omega
  have hpne : sliceK msg k ≠ [] := sliceK_ne_nil _ _ hlt
  rw [fragAt_shape]
  have hcode : (if PAYLOAD_SIZE * k == 0 then START_CODE else CONTINUE_CODE) = CONTINUE_CODE := by
    have hkne : (PAYLOAD_SIZE * k == 0) = false := by
      simp only [beq_eq_false_iff_ne, ne_eq, PAYLOAD_SIZE]
      omega
    rw [hkne]
    rfl
  have hv : fragIndexVal msg.length (PAYLOAD_SIZE * k) % U16 =
      totalFragments msg.length - 1 - k := by
    have h1 : (PAYLOAD_SIZE * k == 0) = false := by
      simp only [beq_eq_false_iff_ne, ne_eq, PAYLOAD_SIZE]
      omega
    have h2 : ¬ (msg.length - PAYLOAD_SIZE * k ≤ PAYLOAD_SIZE) := by
      simp only [PAYLOAD_SIZE] at *
      omega
    have h3 : PAYLOAD_SIZE * k / PAYLOAD_SIZE = k := by
      simp only [PAYLOAD_SIZE]
      omega
    simp only [fragIndexVal, h1, Bool.false_eq_true, if_false, if_neg h2, h3, U16]
    omega
  have hlo : (totalFragments msg.length - 1 - k) % 256 = totalFragments msg.length - 1 - k := by
    omega
  have hhi : (totalFragments msg.length - 1 - k) / 256 % 256 = 0 := by omega
  rw [hcode, hv, hlo, hhi]
  rw [rxStep_eval s t CONTINUE_CODE (totalFragments msg.length - 1 - k) 0 (sliceK msg k)
    hplen hpne hz]
  have hcne : (CONTINUE_CODE == START_CODE) = false := by decide
  have hne0 : ((totalFragments msg.length - 1 - k + 256 * 0) == 0) = false := by
    simp only [Nat.mul_zero, Nat.add_zero, beq_eq_false_iff_ne, ne_eq]
    omega
  have hk100 : k < MAX_PACKETS_RCV := by
    simp only [MAX_PACKETS_RCV]
    omega
  have htake : msg.take (PAYLOAD_SIZE * k) ++ sliceK msg k = msg.take (PAYLOAD_SIZE * (k + 1)) := by
    have e : PAYLOAD_SIZE * (k + 1) = PAYLOAD_SIZE * k + PAYLOAD_SIZE := by ring
    rw [e, List.take_add]
    rfl
  simp only [hcne, Bool.false_eq_true, if_false, reduceIte, hne0, hrecv, hbuf, hexp,
    if_pos hk100]
  simp [applyRxTimeout, RECEIVE_TIMEOUT, htake]

/-- Reassembly of the final fragment of a multi-fragment message:
the completed message is exactly the original byte string. -/
lemma rxStep_last (msg : List Nat) (s : RxState) (t k : Nat)
    (hk : 1 ≤ k) (hlt : PAYLOAD_SIZE * k < msg.length)
    (hle : msg.length ≤ PAYLOAD_SIZE * (k + 1))
    (hlen : msg.length ≤ 2060) (hz : (sliceK msg k).getLast? ≠ some 0)
    (hbuf : s.rxBuffer = msg.take (PAYLOAD_SIZE * k))
    (hexp : s.expectedFragments = totalFragments msg.length)
    (hrecv : s.receivedFragments = k) :
    rxStep s t (fragAt msg (PAYLOAD_SIZE * k)) = (⟨[], 0, 0, t⟩, some msg) := by
  have hkF : k + 1 = totalFragments msg.length := by
    simp only [totalFragments, PAYLOAD_SIZE] at *
    omega
  have hplen : (sliceK msg k).length ≤ PAYLOAD_SIZE := by
    rw [sliceK_length]; omega
  have hpne : sliceK msg k ≠ [] := sliceK_ne_nil _ _ hlt
  have hsl : sliceK msg k = msg.drop (PAYLOAD_SIZE * k) := by
    apply List.take_of_length_le
    simp only [List.length_drop, PAYLOAD_SIZE] at *
    omega
  rw [fragAt_shape]
  have hcode : (if PAYLOAD_SIZE * k == 0 then START_CODE else CONTINUE_CODE) = CONTINUE_CODE := by
    have hkne : (PAYLOAD_SIZE * k == 0) = false := by
      simp only [beq_eq_false_iff_ne, ne_eq, PAYLOAD_SIZE]
      omega
    rw [hkne]
    rfl
  have hv : fragIndexVal msg.length (PAYLOAD_SIZE * k) % U16 = 0 := by
    have h1 : (PAYLOAD_SIZE * k == 0) = false := by
      simp only [beq_eq_false_iff_ne, ne_eq, PAYLOAD_SIZE]
      omega
    have h2 : msg.length - PAYLOAD_SIZE * k ≤ PAYLOAD_SIZE := by
      simp only [PAYLOAD_SIZE] at *
      omega
    simp only [fragIndexVal, h1, Bool.false_eq_true, if_false, if_pos h2, U16, Nat.zero_mod]
  rw [hcode, hv]
  norm_num
  rw [rxStep_eval s t CONTINUE_CODE 0 0 (sliceK msg k) hplen hpne hz]
  have hcne : (CONTINUE_CODE == START_CODE) = false := by decide
  have hk100 : k < MAX_PACKETS_RCV := by
    have hF72 : totalFragments msg.length ≤ 72 := totalFragments_le _ hlen
    simp only [MAX_PACKETS_RCV]
    omega
  have hdone : ((k + 1) == s.expectedFragments) = true := by
    rw [hexp, ← hkF]
    exact beq_self_eq_true _
  have hmsg : msg.take (PAYLOAD_SIZE * k) ++ sliceK msg k = msg := by
    rw [hsl, List.take_append_drop]
  simp only [hcne, Bool.false_eq_true, if_false, reduceIte, hrecv, hbuf, hexp,
    if_pos hk100, beq_self_eq_true, if_true]
  rw [← hexp]
  simp only [hdone, if_true, hmsg]
  simp [applyRxTimeout, hmsg]

/-- From the invariant state after `k` fragments, feeding the remaining
fragments delivers exactly the original message. -/
lemma rxRun_loop (msg : List Nat) (hlen : msg.length ≤ 2060) (hz : fragsLastNonzero msg) :
    ∀ (n k : Nat) (ts : List Nat) (s : RxState),
      msg.length - PAYLOAD_SIZE * k = n → 1 ≤ k →
      PAYLOAD_SIZE * k < msg.length →
      s.rxBuffer = msg.take (PAYLOAD_SIZE * k) →
      s.expectedFragments = totalFragments msg.length →
      s.receivedFragments = k →
      (sendLoopAux msg (PAYLOAD_SIZE * k)).length ≤ ts.length →
      (rxRun s (ts.zip (sendLoopAux msg (PAYLOAD_SIZE * k)))).2 = [msg] := by
  intro n
  induction n using Nat.strong_induction_on with
  | _ n ih =>
    intro k ts s hn hk hlt hbuf hexp hrecv hts
    have hzk : (sliceK msg k).getLast? ≠ some 0 := by
      apply hz
      simp only [totalFragments, PAYLOAD_SIZE] at *
      omega
    rw [sendLoopAux_unfold _ _ hlt] at hts ⊢
    cases ts with
    | nil => simp at hts
    | cons t ts' =>
      rw [List.zip_cons_cons]
      rcases Nat.lt_or_ge (PAYLOAD_SIZE * (k + 1)) msg.length with hmid | hlast
      · rw [rxRun]
        rw [rxStep_mid msg s t k hk hmid hlen hzk hbuf hexp hrecv]
        simp only [Option.toList_none, List.nil_append]
        exact ih (msg.length - PAYLOAD_SIZE * (k + 1))
          (by simp only [PAYLOAD_SIZE] at *; omega) (k + 1) ts' _ rfl (by omega) hmid
          rfl rfl rfl (by simpa using Nat.le_of_succ_le_succ hts)
      · have hnil : sendLoopAux msg (PAYLOAD_SIZE * (k + 1)) = [] :=
          sendLoopAux_nil _ _ hlast
        rw [hnil]
        rw [rxRun]
        rw [rxStep_last msg s t k hk hlt hlast hlen hzk hbuf hexp hrecv]
        simp [rxRun]

/-- Feeding all fragments of a message, in order, into the reassembly from
any starting state delivers exactly that message (the first fragment's
START code resets the reassembly state). -/
lemma rxRun_fragments (msg : List Nat) (ts : List Nat) (s0 : RxState)
    (h0 : 0 < msg.length) (hlen : msg.length ≤ 2060) (hz : fragsLastNonzero msg)
    (hts : (sendFragments msg).length ≤ ts.length) :
    (rxRun s0 (ts.zip (sendFragments msg))).2 = [msg] := by
  have hz0 : (sliceK msg 0).getLast? ≠ some 0 := by
    apply hz
    simp only [totalFragments, PAYLOAD_SIZE]
    omega
  have he0 : sendFragments msg = sendLoopAux msg (PAYLOAD_SIZE * 0) := by
    simp [sendFragments]
  rw [he0] at hts ⊢
  have hlt0 : PAYLOAD_SIZE * 0 < msg.length := by simpa using h0
  rw [sendLoopAux_unfold _ _ hlt0] at hts ⊢
  cases ts with
  | nil => simp at hts
  | cons t ts' =>
    rw [List.zip_cons_cons]
    rcases Nat.lt_or_ge PAYLOAD_SIZE msg.length with hmulti | hsingle
    · rw [rxRun]
      rw [rxStep_start_multi msg s0 t hmulti hlen hz0]
      simp only [Option.toList_none, List.nil_append]
      have h1 : PAYLOAD_SIZE * 1 = PAYLOAD_SIZE * (0 + 1) := by ring
      have hbuf1 : msg.take PAYLOAD_SIZE = msg.take (PAYLOAD_SIZE * 1) := by norm_num
      exact rxRun_loop msg hlen hz (msg.length - PAYLOAD_SIZE * 1) 1 ts' _ rfl (le_refl 1)
        (by simp only [PAYLOAD_SIZE] at *; omega) (by simpa using hbuf1) rfl rfl
        (by simpa using Nat.le_of_succ_le_succ hts)
    · have hnil : sendLoopAux msg (PAYLOAD_SIZE * (0 + 1)) = [] := by
        apply sendLoopAux_nil
        simpa using hsingle
      rw [hnil]
      rw [rxRun]
      rw [rxStep_start_single msg s0 t h0 hsingle hz0]
      simp [rxRun]

/-- A message that fits in a single fragment produces exactly one packet. -/
lemma sendFragments_single (msg : List Nat) (h0 : 0 < msg.length)
    (hle : msg.length ≤ PAYLOAD_SIZE) :
    sendFragments msg = [fragAt msg 0] := by
  unfold sendFragments
  rw [sendLoopAux, dif_pos h0, sendLoopAux,
    dif_neg (by simp only [PAYLOAD_SIZE] at *; omega)]

lemma fragIndexVal_mod (msg : List Nat) (k : Nat) (hlen : msg.length ≤ 2060)
    (hlt : PAYLOAD_SIZE * k < msg.length) :
    fragIndexVal msg.length (PAYLOAD_SIZE * k) % U16 =
      totalFragments msg.length - 1 - k := by
  have hF72 := totalFragments_le _ hlen
  rcases Nat.eq_zero_or_pos k with rfl | hkpos
  · simp only [Nat.mul_zero, fragIndexVal, beq_self_eq_true, if_true, U16]
    omega
  · have h1 : (PAYLOAD_SIZE * k == 0) = false := by
      simp only [beq_eq_false_iff_ne, ne_eq, PAYLOAD_SIZE]
      omega
    rcases le_or_lt (msg.length - PAYLOAD_SIZE * k) PAYLOAD_SIZE with h2 | h2
    · have hkF : totalFragments msg.length - 1 - k = 0 := by
        simp only [totalFragments, PAYLOAD_SIZE] at *
        omega
      simp only [fragIndexVal, h1, Bool.false_eq_true, if_false, if_pos h2, U16, hkF,
        Nat.zero_mod]
    · have h3 : PAYLOAD_SIZE * k / PAYLOAD_SIZE = k := by
        simp only [PAYLOAD_SIZE]
        omega
      simp only [fragIndexVal, h1, Bool.false_eq_true, if_false,
        if_neg (by omega : ¬(msg.length - PAYLOAD_SIZE * k ≤ PAYLOAD_SIZE)), h3, U16]
      omega

lemma getD_cons_one (c a b : Nat) (r : List Nat) : (c :: a :: b :: r).getD 1 0 = a := rfl

lemma getD_cons_two (c a b : Nat) (r : List Nat) : (c :: a :: b :: r).getD 2 0 = b := rfl

lemma getD_cons_zero' (c a b : Nat) (r : List Nat) : (c :: a :: b :: r).getD 0 0 = c := rfl

/-- C8: the k-th emitted fragment (0-indexed) of an outgoing message carries
code byte 'M' (START_CODE) when k = 0 and 'C' (CONTINUE_CODE) otherwise, and
its 16-bit little-endian index field equals F - 1 - k where
F = ceil(|M|/29) is the fragment count; in particular the final fragment
(k = F - 1) has index 0.  (Reachable outgoing messages are at most
MAX_MSG_SIZE = 2048 bytes before encryption and 2060 after.) -/
theorem c8_fragment_headers (msg : List Nat) (k : Nat)
    (hlen : msg.length ≤ 2060) (hk : k < totalFragments msg.length) :
    ((sendFragments msg).getD k []).getD 0 0 =
      (if k = 0 then START_CODE else CONTINUE_CODE)
    ∧ ((sendFragments msg).getD k []).getD 1 0 +
        256 * ((sendFragments msg).getD k []).getD 2 0 =
        totalFragments msg.length - 1 - k
    ∧ (sendFragments msg).length = totalFragments msg.length
    ∧ (k = totalFragments msg.length - 1 →
        ((sendFragments msg).getD k []).getD 1 0 +
          256 * ((sendFragments msg).getD k []).getD 2 0 = 0) := by
  have hF72 := totalFragments_le _ hlen
  have hlt : PAYLOAD_SIZE * k < msg.length := by
    simp only [totalFragments, PAYLOAD_SIZE] at *
    omega
  have hvk := fragIndexVal_mod msg k hlen hlt
  have hvlt : totalFragments msg.length - 1 - k < 256 := by omega
  refine ⟨?_, ?_, sendFragments_length msg, ?_⟩
  · rw [sendFragments_getD _ _ hlt, fragAt_shape, getD_cons_zero']
    rcases Nat.eq_zero_or_pos k with rfl | hp
    · norm_num
    · have hne : (PAYLOAD_SIZE * k == 0) = false := by
        simp only [beq_eq_false_iff_ne, ne_eq, PAYLOAD_SIZE]
        omega
      rw [hne]
      simp only [Bool.false_eq_true, if_false]
      rw [if_neg (by omega : ¬ k = 0)]
  · rw [sendFragments_getD _ _ hlt, fragAt_shape, getD_cons_one, getD_cons_two, hvk]
    omega
  · intro hkF
    rw [sendFragments_getD _ _ hlt, fragAt_shape, getD_cons_one, getD_cons_two, hvk]
    omega

/-- Witness for `c8_fragment_headers` at msg of 30 bytes (2 fragments), k = 1. -/
theorem c8_fragment_headers_witness :
    (List.replicate 30 7 : List Nat).length ≤ 2060 ∧
    1 < totalFragments (List.replicate 30 7 : List Nat).length ∧
    (((sendFragments (List.replicate 30 7)).getD 1 []).getD 0 0 =
      (if 1 = 0 then START_CODE else CONTINUE_CODE)
    ∧ ((sendFragments (List.replicate 30 7)).getD 1 []).getD 1 0 +
        256 * ((sendFragments (List.replicate 30 7)).getD 1 []).getD 2 0 =
        totalFragments (List.replicate 30 7 : List Nat).length - 1 - 1
    ∧ (sendFragments (List.replicate 30 7)).length =
        totalFragments (List.replicate 30 7 : List Nat).length
    ∧ (1 = totalFragments (List.replicate 30 7 : List Nat).length - 1 →
        ((sendFragments (List.replicate 30 7)).getD 1 []).getD 1 0 +
          256 * ((sendFragments (List.replicate 30 7)).getD 1 []).getD 2 0 = 0)) :=
  ⟨by decide, by decide,
   c8_fragment_headers (List.replicate 30 7) 1 (by decide) (by decide)⟩

/-- C1 (amended): for every byte string M with 0 < |M| ≤ MAX_MSG_SIZE,
sendData splits M into ceil(|M|/29) fragments, feeding those fragments in
order into receiveData's reassembly yields exactly M as the delivered
message, and the final emitted fragment has header index 0 — PROVIDED that
no fragment's payload ends in a 0x00 byte (the receiver's unpad strips
trailing zeros, so trailing-zero payload bytes are otherwise lost; see the
counterexample). -/
theorem c1_fragmentation_roundtrip (msg : List Nat) (ts : List Nat)
    (h0 : 0 < msg.length) (h1 : msg.length ≤ MAX_MSG_SIZE)
    (hz : fragsLastNonzero msg)
    (hts : (sendFragments msg).length ≤ ts.length) :
    (sendFragments msg).length = totalFragments msg.length
    ∧ (rxRun RxState.init (ts.zip (sendFragments msg))).2 = [msg]
    ∧ ((sendFragments msg).getD (totalFragments msg.length - 1) []).getD 1 0 +
        256 * ((sendFragments msg).getD (totalFragments msg.length - 1) []).getD 2 0
        = 0 := by
  have hlen : msg.length ≤ 2060 := by
    simp only [MAX_MSG_SIZE] at h1
    omega
  refine ⟨sendFragments_length msg, rxRun_fragments msg ts _ h0 hlen hz hts, ?_⟩
  have hk := c8_fragment_headers msg (totalFragments msg.length - 1) hlen
    (by simp only [totalFragments, PAYLOAD_SIZE] at *; omega)
  exact hk.2.2.2 rfl

/-- Witness for `c1_fragmentation_roundtrip` at M = [1, 2, 3]. -/
theorem c1_fragmentation_roundtrip_witness :
    (0 < ([1, 2, 3] : List Nat).length ∧ ([1, 2, 3] : List Nat).length ≤ MAX_MSG_SIZE ∧
      fragsLastNonzero [1, 2, 3]) ∧
    ((sendFragments [1, 2, 3]).length = totalFragments ([1, 2, 3] : List Nat).length
    ∧ (rxRun RxState.init ([0].zip (sendFragments [1, 2, 3]))).2 = [[1, 2, 3]]
    ∧ ((sendFragments [1, 2, 3]).getD (totalFragments ([1, 2, 3] : List Nat).length - 1) []).getD 1 0 +
        256 * ((sendFragments [1, 2, 3]).getD (totalFragments ([1, 2, 3] : List Nat).length - 1) []).getD 2 0
        = 0) :=
  ⟨⟨by decide, by decide, by decide⟩,
   c1_fragmentation_roundtrip [1, 2, 3] [0] (by decide) (by decide) (by decide)
     (by rw [sendFragments_single _ (by decide) (by decide)]; decide)⟩

/-- C1 counterexample: the claim as stated fails for M = [1, 0]
(0 < |M| ≤ MAX_MSG_SIZE): feeding the emitted fragments into the
reassembly delivers [1], not [1, 0] — the trailing zero byte is eaten by
unpad. -/
theorem c1_counterexample :
    0 < ([1, 0] : List Nat).length ∧ ([1, 0] : List Nat).length ≤ MAX_MSG_SIZE
    ∧ (rxRun RxState.init ([0].zip (sendFragments [1, 0]))).2 = [[1]]
    ∧ ([[1]] : List (List Nat)) ≠ [[1, 0]] := by
  rw [sendFragments_single [1, 0] (by decide) (by decide)]
  decide

/-! ## Secure channel (SimpleCha2.cpp)

Per-peer state: a 32-byte key, a uint32 send counter (`encryptCounter`) and
a uint32 highest-seen receive counter (`decryptCounter`).  The ChaCha20
keystream is an external primitive, passed in as
`ks : key → nonce → position → byte`; the cipher applies it by XOR for both
encryption and decryption (a stream cipher's encrypt and decrypt are the
same XOR). -/

/-- A ChaCha20 keystream: key and 12-byte nonce select a byte stream. -/
def Keystream : Type := List Nat → List Nat → Nat → Nat

structure ChaState where
  key : List Nat
  encryptCounter : Nat
  decryptCounter : Nat
deriving Repr, DecidableEq

/-- `SimpleCha2::setKey` (SimpleCha2.cpp:19-23): copy the key and reset
both counters to 0. -/
def chaSetKey (newKey : List Nat) : ChaState := ⟨newKey, 0, 0⟩

/-- XOR a byte list against a keystream starting at position `i`. -/
def xorKS (f : Nat → Nat) : Nat → List Nat → List Nat
  | _, [] => []
  | i, b :: bs => (b ^^^ f i) :: xorKS f (i + 1) bs

/-- Little-endian 4-byte encoding of a uint32 (the `memcpy` of the counter
into the nonce at SimpleCha2.cpp:177-180 on a little-endian target). -/
def le32 (c : Nat) : List Nat :=
  [c % 256, c / 256 % 256, c / 65536 % 256, c / 16777216 % 256]

/-- Little-endian 4-byte decoding (`extractCounter`, SimpleCha2.cpp:182-186). -/
def decodeLE32 (l : List Nat) : Nat :=
  l.getD 0 0 + 256 * l.getD 1 0 + 65536 * l.getD 2 0 + 16777216 * l.getD 3 0

/-- `SimpleCha2::encrypt` (SimpleCha2.cpp:32-49): pre-increment the uint32
counter, build nonce = IV (8 random bytes, an input here) followed by the
little-endian counter, and output nonce followed by the XORed body. -/
def chaEncrypt (ks : Keystream) (s : ChaState) (iv : List Nat) (pt : List Nat) :
    ChaState × List Nat :=
  let c := (s.encryptCounter + 1) % U32
  let nonce := iv ++ le32 c
  (⟨s.key, c, s.decryptCounter⟩, nonce ++ xorKS (ks s.key nonce) 0 pt)

/-- `SimpleCha2::decrypt` (SimpleCha2.cpp:81-103): reject inputs shorter
than the 12-byte nonce; extract the received counter from nonce bytes
8..11; reject replays (`receivedCounter <= decryptCounter`); otherwise
advance the highest-seen counter and XOR the body. -/
def chaDecrypt (ks : Keystream) (s : ChaState) (ct : List Nat) :
    ChaState × List Nat :=
  if ct.length < 12 then (s, [])
  else
    let nonce := ct.take 12
    let rc := decodeLE32 (nonce.drop 8)
    if rc ≤ s.decryptCounter then (s, [])
    else (⟨s.key, s.encryptCounter, rc⟩, xorKS (ks s.key nonce) 0 (ct.drop 12))

lemma xorKS_involution (f : Nat → Nat) : ∀ (i : Nat) (l : List Nat),
    xorKS f i (xorKS f i l) = l := by
  intro i l
  induction l generalizing i with
  | nil => rfl
  | cons b bs ih =>
    simp only [xorKS, ih]
    congr 1
    rw [Nat.xor_assoc, Nat.xor_self, Nat.xor_zero]

lemma decodeLE32_le32 (c : Nat) (h : c < U32) : decodeLE32 (le32 c) = c := by
  simp only [le32, decodeLE32, List.getD_cons_zero, List.getD_cons_succ, U32] at *
  omega

lemma chaEncrypt_length (ks : Keystream) (s : ChaState) (iv pt : List Nat)
    (hiv : iv.length = 8) :
    (chaEncrypt ks s iv pt).2.length = 12 + pt.length := by
  have hx : ∀ (i : Nat) (l : List Nat) (f : Nat → Nat), (xorKS f i l).length = l.length := by
    intro i l
    induction l generalizing i with
    | nil => intro f; rfl
    | cons b bs ih => intro f; simp [xorKS, ih]
  simp [chaEncrypt, le32, hx, hiv]
  omega

/-- Decrypting a fresh ciphertext from a same-keyed channel whose
highest-seen counter is below the new counter recovers the plaintext and
records the counter. -/
lemma chaDecrypt_chaEncrypt (ks : Keystream) (e d : ChaState) (iv pt : List Nat)
    (hkey : d.key = e.key) (hiv : iv.length = 8)
    (hctr : d.decryptCounter < (e.encryptCounter + 1) % U32) :
    chaDecrypt ks d (chaEncrypt ks e iv pt).2 =
      (⟨d.key, d.encryptCounter, (e.encryptCounter + 1) % U32⟩, pt) := by
  have hlen := chaEncrypt_length ks e iv pt hiv
  unfold chaDecrypt
  rw [if_neg (by omega)]
  have hc : (e.encryptCounter + 1) % U32 < U32 := Nat.mod_lt _ (by simp [U32])
  have htake : (chaEncrypt ks e iv pt).2.take 12 = iv ++ le32 ((e.encryptCounter + 1) % U32) := by
    simp only [chaEncrypt]
    rw [List.take_append_of_le_length (by simp [le32, hiv])]
    apply List.take_of_length_le
    simp [le32, hiv]
  have hdrop : (chaEncrypt ks e iv pt).2.drop 12 =
      xorKS (ks e.key (iv ++ le32 ((e.encryptCounter + 1) % U32))) 0 pt := by
    simp only [chaEncrypt]
    rw [List.drop_append_of_le_length (by simp [le32, hiv])]
    rw [List.drop_of_length_le (by simp [le32, hiv]), List.nil_append]
  rw [htake, hdrop]
  have hrc : decodeLE32 ((iv ++ le32 ((e.encryptCounter + 1) % U32)).drop 8) =
      (e.encryptCounter + 1) % U32 := by
    rw [List.drop_append_of_le_length (by omega), List.drop_of_length_le (by omega),
      List.nil_append]
    exact decodeLE32_le32 _ hc
  simp only [hrc]
  rw [if_neg (by omega)]
  rw [show ks d.key = ks e.key by rw [hkey], xorKS_involution]

/-- Replaying any ciphertext whose counter is at most the highest seen is
rejected with an empty result and unchanged state. -/
lemma chaDecrypt_replay (ks : Keystream) (d : ChaState) (ct : List Nat)
    (hle : 12 ≤ ct.length)
    (hrc : decodeLE32 ((ct.take 12).drop 8) ≤ d.decryptCounter) :
    chaDecrypt ks d ct = (d, []) := by
  unfold chaDecrypt
  rw [if_neg (by omega), if_pos hrc]

/-- C2: for two SimpleCha2 states sharing a key, with the receiver's
highest-seen counter below the sender's next counter (true in particular
for two freshly keyed instances), decrypt(encrypt(X)) returns X the first
time the ciphertext is submitted, and re-submitting the exact same
ciphertext to the same decrypting instance returns the empty byte string. -/
theorem c2_replay_rejection (ks : Keystream) (e d : ChaState) (X iv : List Nat)
    (hkey : d.key = e.key) (hiv : iv.length = 8)
    (hctr : d.decryptCounter < (e.encryptCounter + 1) % U32) :
    (chaDecrypt ks d (chaEncrypt ks e iv X).2).2 = X
    ∧ (chaDecrypt ks (chaDecrypt ks d (chaEncrypt ks e iv X).2).1
        (chaEncrypt ks e iv X).2).2 = [] := by
  have h1 := chaDecrypt_chaEncrypt ks e d iv X hkey hiv hctr
  constructor
  · rw [h1]
  · rw [h1]
    have hlen := chaEncrypt_length ks e iv X hiv
    have htake : (chaEncrypt ks e iv X).2.take 12 = iv ++ le32 ((e.encryptCounter + 1) % U32) := by
      simp only [chaEncrypt]
      rw [List.take_append_of_le_length (by simp [le32, hiv])]
      apply List.take_of_length_le
      simp [le32, hiv]
    have hc : (e.encryptCounter + 1) % U32 < U32 := Nat.mod_lt _ (by simp [U32])
    rw [chaDecrypt_replay ks _ _ (by omega)]
    rw [htake]
    rw [List.drop_append_of_le_length (by omega), List.drop_of_length_le (by omega),
      List.nil_append]
    rw [decodeLE32_le32 _ hc]

/-- Witness for `c2_replay_rejection`: fresh zero-keyed instances, a zero
keystream, X = [1, 2], IV of 8 zero bytes. -/
theorem c2_replay_rejection_witness :
    ((List.replicate 8 0 : List Nat).length = 8 ∧
      (chaSetKey (List.replicate 32 0)).decryptCounter <
        ((chaSetKey (List.replicate 32 0)).encryptCounter + 1) % U32) ∧
    ((chaDecrypt (fun _ _ _ => 0) (chaSetKey (List.replicate 32 0))
        (chaEncrypt (fun _ _ _ => 0) (chaSetKey (List.replicate 32 0))
          (List.replicate 8 0) [1, 2]).2).2 = [1, 2]
    ∧ (chaDecrypt (fun _ _ _ => 0)
        (chaDecrypt (fun _ _ _ => 0) (chaSetKey (List.replicate 32 0))
          (chaEncrypt (fun _ _ _ => 0) (chaSetKey (List.replicate 32 0))
            (List.replicate 8 0) [1, 2]).2).1
        (chaEncrypt (fun _ _ _ => 0) (chaSetKey (List.replicate 32 0))
          (List.replicate 8 0) [1, 2]).2).2 = []) :=
  ⟨⟨by decide, by decide⟩,
   c2_replay_rejection (fun _ _ _ => 0) (chaSetKey (List.replicate 32 0))
     (chaSetKey (List.replicate 32 0)) [1, 2] (List.replicate 8 0)
     rfl (by decide) (by decide)⟩

/-! ## Per-peer receive pipeline (RadioManager::receiveData delivery stage,
decryptMessage, mailbox, readMsg)

`PairedDevice` (RadioManager.h:29-37): address, public/shared keys, FIFO
mailbox and the per-peer `SimpleCha2` object.  `receiveData` on pipe p only
touches slot p-1, so the pipeline for one pipe is the slot plus the
(shared) reassembly state. -/

structure Slot where
  addr : String
  publicKey : List Nat
  sharedKey : List Nat
  mailbox : List (List Nat)
  cha : ChaState
deriving Repr, DecidableEq

instance : Inhabited Slot := ⟨⟨"", [], [], [], ⟨[], 0, 0⟩⟩⟩

/-- Mailbox insertion (RadioManager.cpp:841-846): push, evicting the
oldest message when full. -/
def mailboxPush (mb : List (List Nat)) (m : List Nat) : List (List Nat) :=
  if mb.length < MAX_MAILBOX_MSG then mb ++ [m] else mb.tail ++ [m]

/-- The delivery stage of `receiveData` (RadioManager.cpp:821-847) on a
completed reassembly buffer: if the slot is paired, attempt decryption via
the slot's SimpleCha2; store the plaintext if decryption yielded bytes,
otherwise store the raw buffer ("possibly unencrypted"). -/
def deliverBuf (ks : Keystream) (slot : Slot) (buf : List Nat) : Slot :=
  if slot.addr ≠ "" then
    let dc := chaDecrypt ks slot.cha buf
    let m := if dc.2 ≠ [] then dc.2 else buf
    { slot with cha := dc.1, mailbox := mailboxPush slot.mailbox m }
  else slot

structure RecvState where
  slot : Slot
  rx : RxState
deriving Repr, DecidableEq

/-- One full `receiveData` call for a fixed pipe: reassembly step, then on
completion the delivery stage. -/
def recvStep (ks : Keystream) (st : RecvState) (now : Nat) (packet32 : List Nat) :
    RecvState :=
  let rp := rxStep st.rx now packet32
  match rp.2 with
  | none => { st with rx := rp.1 }
  | some buf => ⟨deliverBuf ks st.slot buf, rp.1⟩

def recvRun (ks : Keystream) (st : RecvState) : List (Nat × List Nat) → RecvState
  | [] => st
  | (t, p) :: rest => recvRun ks (recvStep ks st t p) rest

/-- `RadioManager::readMsg` (RadioManager.cpp:183-192) restricted to one
slot: dequeue the oldest message if the slot is paired and nonempty. -/
def slotReadMsg (s : Slot) : Slot × List Nat :=
  if s.addr ≠ "" ∧ s.mailbox ≠ [] then
    ({ s with mailbox := s.mailbox.tail }, s.mailbox.headD [])
  else (s, [])

/-- The pipeline is the reassembly run followed by delivering each
completed buffer in order. -/
lemma recvRun_decomp (ks : Keystream) (st : RecvState) (l : List (Nat × List Nat)) :
    recvRun ks st l =
      ⟨(rxRun st.rx l).2.foldl (deliverBuf ks) st.slot, (rxRun st.rx l).1⟩ := by
  induction l generalizing st with
  | nil => simp [recvRun, rxRun]
  | cons p rest ih =>
    obtain ⟨t, pk⟩ := p
    show recvRun ks (recvStep ks st t pk) rest = _
    rw [ih, rxRun]
    cases h : (rxStep st.rx t pk).2 with
    | none => simp [recvStep, h]
    | some buf => simp [recvStep, h]

/-- Counter extraction from a freshly produced ciphertext. -/
lemma chaEncrypt_extract (ks : Keystream) (e : ChaState) (iv pt : List Nat)
    (hiv : iv.length = 8) :
    decodeLE32 (((chaEncrypt ks e iv pt).2.take 12).drop 8) =
      (e.encryptCounter + 1) % U32 := by
  have htake : (chaEncrypt ks e iv pt).2.take 12 =
      iv ++ le32 ((e.encryptCounter + 1) % U32) := by
    simp only [chaEncrypt]
    rw [List.take_append_of_le_length (by simp [le32, hiv])]
    apply List.take_of_length_le
    simp [le32, hiv]
  rw [htake, List.drop_append_of_le_length (by omega),
    List.drop_of_length_le (by omega), List.nil_append]
  exact decodeLE32_le32 _ (Nat.mod_lt _ (by simp [U32]))

/-- Replaying a ciphertext after its counter has been recorded is rejected. -/
lemma chaDecrypt_self_replay (ks : Keystream) (e d : ChaState) (iv pt : List Nat)
    (hiv : iv.length = 8) (hge : (e.encryptCounter + 1) % U32 ≤ d.decryptCounter) :
    chaDecrypt ks d (chaEncrypt ks e iv pt).2 = (d, []) := by
  apply chaDecrypt_replay
  · rw [chaEncrypt_length ks e iv pt hiv]; omega
  · rw [chaEncrypt_extract ks e iv pt hiv]; exact hge

/-- C3 (amended): after the ciphertext fragments of an encrypted message X
have been received once and the plaintext read from the mailbox,
re-injecting the exact same fragments delivers the RAW CIPHERTEXT
(nonce plus encrypted body) to the mailbox: the second readMsg returns
those ciphertext bytes, not empty and not X, so the plaintext content is
obtained exactly once but a second (garbage) message IS delivered. -/
theorem c3_replay_delivers_ciphertext (ks : Keystream) (key iv X pk sk : List Nat)
    (ec ecr dc dcs : Nat) (addr : String) (ts1 ts2 : List Nat) (rx0 : RxState)
    (haddr : addr ≠ "") (hiv : iv.length = 8) (hX : X ≠ [])
    (hXlen : X.length ≤ 2036)
    (hctr : dc < (ec + 1) % U32)
    (hz : fragsLastNonzero (chaEncrypt ks ⟨key, ec, dcs⟩ iv X).2)
    (hts1 : (sendFragments (chaEncrypt ks ⟨key, ec, dcs⟩ iv X).2).length ≤ ts1.length)
    (hts2 : (sendFragments (chaEncrypt ks ⟨key, ec, dcs⟩ iv X).2).length ≤ ts2.length) :
    (slotReadMsg (recvRun ks ⟨⟨addr, pk, sk, [], ⟨key, ecr, dc⟩⟩, rx0⟩
        (ts1.zip (sendFragments (chaEncrypt ks ⟨key, ec, dcs⟩ iv X).2))).slot).2 = X
    ∧ (slotReadMsg (recvRun ks
        ⟨(slotReadMsg (recvRun ks ⟨⟨addr, pk, sk, [], ⟨key, ecr, dc⟩⟩, rx0⟩
            (ts1.zip (sendFragments (chaEncrypt ks ⟨key, ec, dcs⟩ iv X).2))).slot).1,
          (recvRun ks ⟨⟨addr, pk, sk, [], ⟨key, ecr, dc⟩⟩, rx0⟩
            (ts1.zip (sendFragments (chaEncrypt ks ⟨key, ec, dcs⟩ iv X).2))).rx⟩
        (ts2.zip (sendFragments (chaEncrypt ks ⟨key, ec, dcs⟩ iv X).2))).slot).2 =
        (chaEncrypt ks ⟨key, ec, dcs⟩ iv X).2
    ∧ (chaEncrypt ks ⟨key, ec, dcs⟩ iv X).2 ≠ X := by
  set ct := (chaEncrypt ks ⟨key, ec, dcs⟩ iv X).2 with hct
  have hctlen : ct.length = 12 + X.length := chaEncrypt_length ks _ iv X hiv
  have h0 : 0 < ct.length := by omega
  have hlen : ct.length ≤ 2060 := by omega
  have houts1 : (rxRun rx0 (ts1.zip (sendFragments ct))).2 = [ct] :=
    rxRun_fragments ct ts1 rx0 h0 hlen hz hts1
  have hdec := chaDecrypt_chaEncrypt ks ⟨key, ec, dcs⟩ ⟨key, ecr, dc⟩ iv X rfl hiv hctr
  have hstep1 : recvRun ks ⟨⟨addr, pk, sk, [], ⟨key, ecr, dc⟩⟩, rx0⟩
      (ts1.zip (sendFragments ct)) =
      ⟨⟨addr, pk, sk, [X], ⟨key, ecr, (ec + 1) % U32⟩⟩,
        (rxRun rx0 (ts1.zip (sendFragments ct))).1⟩ := by
    rw [recvRun_decomp, houts1]
    simp only [List.foldl_cons, List.foldl_nil, deliverBuf, if_pos haddr, hdec]
    simp [mailboxPush, hX, MAX_MAILBOX_MSG]
  have hread1 : slotReadMsg (⟨addr, pk, sk, [X], ⟨key, ecr, (ec + 1) % U32⟩⟩ : Slot) =
      (⟨addr, pk, sk, [], ⟨key, ecr, (ec + 1) % U32⟩⟩, X) := by
    simp [slotReadMsg, haddr]
  have houts2 : ∀ rx1 : RxState, (rxRun rx1 (ts2.zip (sendFragments ct))).2 = [ct] :=
    fun rx1 => rxRun_fragments ct ts2 rx1 h0 hlen hz hts2
  have hreplay : chaDecrypt ks ⟨key, ecr, (ec + 1) % U32⟩ ct = (⟨key, ecr, (ec + 1) % U32⟩, []) :=
    chaDecrypt_self_replay ks ⟨key, ec, dcs⟩ _ iv X hiv (le_refl _)
  have hstep2 : recvRun ks
      ⟨⟨addr, pk, sk, [], ⟨key, ecr, (ec + 1) % U32⟩⟩,
        (rxRun rx0 (ts1.zip (sendFragments ct))).1⟩
      (ts2.zip (sendFragments ct)) =
      ⟨⟨addr, pk, sk, [ct], ⟨key, ecr, (ec + 1) % U32⟩⟩,
        (rxRun (rxRun rx0 (ts1.zip (sendFragments ct))).1
          (ts2.zip (sendFragments ct))).1⟩ := by
    rw [recvRun_decomp, houts2]
    simp only [List.foldl_cons, List.foldl_nil, deliverBuf, if_pos haddr, hreplay]
    simp [mailboxPush, MAX_MAILBOX_MSG]
  have hctne : ct ≠ X := by
    intro he
    have : ct.length = X.length := by rw [he]
    omega
  refine ⟨?_, ?_, hctne⟩
  · rw [hstep1]
    simp only [hread1]
  · rw [hstep1]
    simp only [hread1]
    rw [hstep2]
    simp [slotReadMsg, haddr, hctne]

/-! Concrete replay run used for the C3 counterexample: key of zeros,
constant-1 keystream, plaintext [2], IV of eight 1 bytes, a receiver slot
paired as "1AAAA". -/

def c3ct : List Nat :=
  (chaEncrypt (fun _ _ _ => 1) (chaSetKey (List.replicate 32 0))
    [1, 1, 1, 1, 1, 1, 1, 1] [2]).2

def c3slot : Slot :=
  ⟨"1AAAA", List.replicate 32 0, List.replicate 32 0, [],
    chaSetKey (List.replicate 32 0)⟩

def c3run1 : RecvState :=
  recvRun (fun _ _ _ => 1) ⟨c3slot, RxState.init⟩ ([0].zip (sendFragments c3ct))

def c3read1 : Slot × List Nat := slotReadMsg c3run1.slot

def c3run2 : RecvState :=
  recvRun (fun _ _ _ => 1) ⟨c3read1.1, c3run1.rx⟩ ([1].zip (sendFragments c3ct))

def c3read2 : Slot × List Nat := slotReadMsg c3run2.slot

/-- C3 counterexample: a plaintext of one byte is encrypted, its fragments
are injected at the receiver and read (yielding the plaintext), then the
SAME captured fragments are re-injected.  A second message IS delivered to
the mailbox (the raw ciphertext), and the second readMsg returns those 13
ciphertext bytes — not empty — refuting the claim as stated. -/
theorem c3_counterexample :
    c3read1.2 = [2] ∧ c3run2.slot.mailbox = [c3ct] ∧ c3read2.2 = c3ct
    ∧ c3read2.2 ≠ [] ∧ c3ct ≠ [2] := by
  have h := sendFragments_single c3ct (by decide) (by decide)
  unfold c3read2 c3run2 c3read1 c3run1
  rw [h]
  decide

/-- Witness for `c3_replay_delivers_ciphertext` at the same concrete
replay family (keystream constant 2, key of zeros, X = [5]). -/
theorem c3_replay_delivers_ciphertext_witness :
    (("1BBBB" : String) ≠ "" ∧ ([3, 3, 3, 3, 3, 3, 3, 3] : List Nat).length = 8 ∧
      ([5] : List Nat) ≠ [] ∧ (0 : Nat) < (0 + 1) % U32 ∧
      fragsLastNonzero (chaEncrypt (fun _ _ _ => 2) ⟨List.replicate 32 0, 0, 0⟩
        [3, 3, 3, 3, 3, 3, 3, 3] [5]).2) ∧
    ((slotReadMsg (recvRun (fun _ _ _ => 2)
        ⟨⟨"1BBBB", [], [], [], ⟨List.replicate 32 0, 0, 0⟩⟩, RxState.init⟩
        ([0].zip (sendFragments (chaEncrypt (fun _ _ _ => 2)
          ⟨List.replicate 32 0, 0, 0⟩ [3, 3, 3, 3, 3, 3, 3, 3] [5]).2))).slot).2 = [5]
    ∧ (slotReadMsg (recvRun (fun _ _ _ => 2)
        ⟨(slotReadMsg (recvRun (fun _ _ _ => 2)
            ⟨⟨"1BBBB", [], [], [], ⟨List.replicate 32 0, 0, 0⟩⟩, RxState.init⟩
            ([0].zip (sendFragments (chaEncrypt (fun _ _ _ => 2)
              ⟨List.replicate 32 0, 0, 0⟩ [3, 3, 3, 3, 3, 3, 3, 3] [5]).2))).slot).1,
          (recvRun (fun _ _ _ => 2)
            ⟨⟨"1BBBB", [], [], [], ⟨List.replicate 32 0, 0, 0⟩⟩, RxState.init⟩
            ([0].zip (sendFragments (chaEncrypt (fun _ _ _ => 2)
              ⟨List.replicate 32 0, 0, 0⟩ [3, 3, 3, 3, 3, 3, 3, 3] [5]).2))).rx⟩
        ([1].zip (sendFragments (chaEncrypt (fun _ _ _ => 2)
          ⟨List.replicate 32 0, 0, 0⟩ [3, 3, 3, 3, 3, 3, 3, 3] [5]).2))).slot).2 =
        (chaEncrypt (fun _ _ _ => 2) ⟨List.replicate 32 0, 0, 0⟩
          [3, 3, 3, 3, 3, 3, 3, 3] [5]).2
    ∧ (chaEncrypt (fun _ _ _ => 2) ⟨List.replicate 32 0, 0, 0⟩
        [3, 3, 3, 3, 3, 3, 3, 3] [5]).2 ≠ [5]) :=
  ⟨⟨by decide, by decide, by decide, by decide, by decide⟩,
   c3_replay_delivers_ciphertext (fun _ _ _ => 2) (List.replicate 32 0)
     [3, 3, 3, 3, 3, 3, 3, 3] [5] [] [] 0 0 0 0 "1BBBB" [0] [1] RxState.init
     (by decide) (by decide) (by decide) (by decide) (by decide) (by decide)
     (by rw [sendFragments_single _ (by decide) (by decide)]; decide)
     (by rw [sendFragments_single _ (by decide) (by decide)]; decide)⟩

/-! ## The manager state (class RadioManager, RadioManager.h:17-170)

`pipes` records the 5-byte address opened on each reading pipe: index i
holds the address of pipe i+1 (`radio.openReadingPipe(i+1, ...)`).
The X25519 shared-secret primitive is external and enters as a function
parameter with the source's argument order
`generateX25519SharedKey(peerPublicKey, privateKey, out)`; derivation
failure (mbedtls errors on malformed input) is not modelled. -/

inductive MState where
  | IDLE
  | TRANSMITTING
  | RECEIVING
  | PAIRING_LISTEN
  | PAIRING_TRANSMIT
deriving Repr, DecidableEq

def X25519fn : Type := List Nat → List Nat → List Nat

structure Manager where
  isEnabled : Bool
  currentState : MState
  radioID : String
  slots : List Slot
  publicKey : List Nat
  privateKey : List Nat
  pipes : List String
  outgoingMsg : List Nat
  outgoingMsgIndex : Nat
  outgoingTargetAddr : String
  pairingStartTime : Nat
  lastPairingAttempt : Nat
  gotPubKey : Bool
  sentPubKey : Bool
  gotAck : Bool
  sentAck : Bool
  isUnpairReq : Bool
  pairingChannel : Nat
deriving Repr, DecidableEq

def slotGet (m : Manager) (i : Nat) : Slot := m.slots.getD i default

/-- `RadioManager::clearPairedAddr` (RadioManager.cpp:400-409): empty the
address and mailbox, zero both keys, and re-key the slot's SimpleCha2 with
the zeroed shared key (which resets both of its counters). -/
def clearPairedAddr (m : Manager) (channel : Nat) : Manager :=
  if channel < MAX_CHANNELS then
    let cleared : Slot := ⟨"", List.replicate KEY_SIZE 0, List.replicate KEY_SIZE 0, [], chaSetKey (List.replicate KEY_SIZE 0)⟩
    { m with slots := m.slots.set channel cleared }
  else m

/-- `RadioManager::getAvailableChannel` (RadioManager.cpp:416-423). -/
def getAvailableChannel (m : Manager) : Nat :=
  match (List.range MAX_CHANNELS).find? (fun i => (slotGet m i).addr == "") with
  | some i => i
  | none => 255

/-- `RadioManager::setPairedAddr` (RadioManager.cpp:362-380): derive the
shared key first when a public key is supplied (`hasKey` models
`publicKey != nullptr`), clear the slot, install address (and keys, also
re-keying the slot cipher with the shared key), then reopen reading pipe
channel+1 with address str(channel) ++ radioID. -/
def setPairedAddrK (x : X25519fn) (m : Manager) (address : String) (channel : Nat)
    (hasKey : Bool) (publicKey : List Nat) : Manager × Bool :=
  if channel < MAX_CHANNELS then
    let sharedKey := x publicKey m.privateKey
    let cleared : Slot := ⟨"", List.replicate KEY_SIZE 0, List.replicate KEY_SIZE 0, [],
      chaSetKey (List.replicate KEY_SIZE 0)⟩
    let withAddr := { cleared with addr := address }
    let final := if hasKey then
        { withAddr with publicKey := publicKey, sharedKey := sharedKey, cha := chaSetKey sharedKey }
      else withAddr
    ({ m with slots := m.slots.set channel final, pipes := m.pipes.set channel (toString channel ++ m.radioID) }, true)
  else (m, false)

/-- `RadioManager::setPairedAddr` Bytes overload (RadioManager.cpp:390-393). -/
def setPairedAddrB (x : X25519fn) (m : Manager) (address : String) (channel : Nat)
    (publicKey : List Nat) : Manager × Bool :=
  if publicKey.length ≠ KEY_SIZE then (m, false)
  else setPairedAddrK x m address channel true publicKey

/-- `RadioManager::setPersonalKeys` (RadioManager.cpp:988-995). -/
def setPersonalKeys (m : Manager) (pub priv : List Nat) : Manager × Bool :=
  if pub.length = KEY_SIZE ∧ priv.length = KEY_SIZE then
    ({ m with publicKey := pub, privateKey := priv }, true)
  else (m, false)

/-- `RadioManager::setPairedDeviceKeys` (RadioManager.cpp:1022-1035).
Note: the source re-keys the slot's cipher with the PUBLIC key
(line 1030), not the derived shared key; this is modelled as written. -/
def setPairedDeviceKeys (x : X25519fn) (m : Manager) (channel : Nat)
    (publicKey : List Nat) : Manager × Bool :=
  if channel < MAX_CHANNELS then
    if publicKey.length = KEY_SIZE then
      let sharedKey := x publicKey m.privateKey
      let slot := slotGet m channel
      let slot2 := { slot with publicKey := publicKey, sharedKey := sharedKey, cha := chaSetKey publicKey }
      ({ m with slots := m.slots.set channel slot2 }, true)
    else (m, false)
  else (m, false)

/-- `RadioManager::initRadio` (RadioManager.cpp:428-437): reopen ALL five
reading pipes, pipe i+1 with address str(i+1) ++ radioID. -/
def initRadio (m : Manager) : Manager :=
  { m with pipes := (List.range MAX_CHANNELS).map (fun i => toString (i + 1) ++ m.radioID) }

/-- `RadioManager::begin` (RadioManager.cpp:76-96): enable, and for each
OCCUPIED slot i open reading pipe i+1 with address str(i) ++ radioID. -/
def beginPipes (m : Manager) : Manager :=
  { m with isEnabled := true,
           pipes := (List.range MAX_CHANNELS).foldl
             (fun ps i => if (slotGet m i).addr ≠ "" then
                 ps.set i (toString i ++ m.radioID)
               else ps)
             m.pipes }

/-! ### getD / set helper lemmas -/

lemma getD_set_self {α : Type} (l : List α) (i : Nat) (v d : α) (h : i < l.length) :
    (l.set i v).getD i d = v := by
  induction l generalizing i with
  | nil => simp at h
  | cons a as ih =>
    cases i with
    | zero => rfl
    | succ j =>
      simp only [List.set_cons_succ, List.getD_cons_succ]
      exact ih j (by simpa using h)

lemma getD_set_ne {α : Type} (l : List α) (i j : Nat) (v d : α) (h : i ≠ j) :
    (l.set i v).getD j d = l.getD j d := by
  induction l generalizing i j with
  | nil => simp [List.getD]
  | cons a as ih =>
    cases i with
    | zero =>
      cases j with
      | zero => exact absurd rfl h
      | succ jj => rfl
    | succ ii =>
      cases j with
      | zero => rfl
      | succ jj =>
        simp only [List.set_cons_succ, List.getD_cons_succ]
        exact ih ii jj (by omega)

lemma getD_map_range {α : Type} (f : Nat → α) (n i : Nat) (d : α) (hi : i < n) :
    ((List.range n).map f).getD i d = f i := by
  induction n generalizing i with
  | zero => omega
  | succ k ih =>
    rw [List.range_succ, List.map_append]
    rcases Nat.lt_or_ge i k with hik | hik
    · rw [List.getD_append _ _ _ _ (by simpa using hik)]
      exact ih i hik
    · have hieq : i = k := by omega
      subst hieq
      rw [List.getD_append_right _ _ _ _ (by simp)]
      simp

/-- C10: after clearPairedAddr(channel) for any channel < MAX_CHANNELS, the
slot's addr is empty, its publicKey and sharedKey are all-zero, its mailbox
is empty, its secure-channel key is zeroed with both counters reset to 0,
and every other slot is unchanged. -/
theorem c10_clear_paired_addr (m : Manager) (ch : Nat)
    (hch : ch < MAX_CHANNELS) (hlen : m.slots.length = MAX_CHANNELS) :
    (slotGet (clearPairedAddr m ch) ch).addr = ""
    ∧ (slotGet (clearPairedAddr m ch) ch).publicKey = List.replicate KEY_SIZE 0
    ∧ (slotGet (clearPairedAddr m ch) ch).sharedKey = List.replicate KEY_SIZE 0
    ∧ (slotGet (clearPairedAddr m ch) ch).mailbox = []
    ∧ (slotGet (clearPairedAddr m ch) ch).cha.key = List.replicate KEY_SIZE 0
    ∧ (slotGet (clearPairedAddr m ch) ch).cha.encryptCounter = 0
    ∧ (slotGet (clearPairedAddr m ch) ch).cha.decryptCounter = 0
    ∧ ∀ j, j ≠ ch → slotGet (clearPairedAddr m ch) j = slotGet m j := by
  have hset : slotGet (clearPairedAddr m ch) ch =
      ⟨"", List.replicate KEY_SIZE 0, List.replicate KEY_SIZE 0, [],
        chaSetKey (List.replicate KEY_SIZE 0)⟩ := by
    unfold clearPairedAddr slotGet
    rw [if_pos hch]
    exact getD_set_self m.slots ch _ default (by rw [hlen]; exact hch)
  refine ⟨?_, ?_, ?_, ?_, ?_, ?_, ?_, ?_⟩
  · rw [hset]
  · rw [hset]
  · rw [hset]
  · rw [hset]
  · rw [hset]; rfl
  · rw [hset]; rfl
  · rw [hset]; rfl
  · intro j hj
    unfold clearPairedAddr slotGet
    rw [if_pos hch]
    exact getD_set_ne m.slots ch j _ default (Ne.symm hj)

/-- A concrete five-slot manager used by several witnesses below. -/
def mgrTwoPaired : Manager :=
  ⟨true, .IDLE, "AAAA",
    [⟨"1BBBB", [1], [2], [[3]], ⟨[4], 5, 6⟩⟩,
     ⟨"2CCCC", [7], [8], [[9]], ⟨[1], 2, 3⟩⟩,
     default, default, default],
    List.replicate 32 1, List.replicate 32 2, ["", "", "", "", ""],
    [], 0, "", 0, 0, false, false, false, false, false, 0⟩

/-- Witness for `c10_clear_paired_addr` on a concrete two-device directory. -/
theorem c10_clear_paired_addr_witness :
    ((1 : Nat) < MAX_CHANNELS ∧ mgrTwoPaired.slots.length = MAX_CHANNELS) ∧
    ((slotGet (clearPairedAddr mgrTwoPaired 1) 1).addr = ""
    ∧ (slotGet (clearPairedAddr mgrTwoPaired 1) 1).publicKey = List.replicate KEY_SIZE 0
    ∧ (slotGet (clearPairedAddr mgrTwoPaired 1) 1).sharedKey = List.replicate KEY_SIZE 0
    ∧ (slotGet (clearPairedAddr mgrTwoPaired 1) 1).mailbox = []
    ∧ (slotGet (clearPairedAddr mgrTwoPaired 1) 1).cha.key = List.replicate KEY_SIZE 0
    ∧ (slotGet (clearPairedAddr mgrTwoPaired 1) 1).cha.encryptCounter = 0
    ∧ (slotGet (clearPairedAddr mgrTwoPaired 1) 1).cha.decryptCounter = 0
    ∧ ∀ j, j ≠ 1 → slotGet (clearPairedAddr mgrTwoPaired 1) j = slotGet mgrTwoPaired j) :=
  ⟨⟨by decide, by decide⟩, c10_clear_paired_addr mgrTwoPaired 1 (by decide) (by decide)⟩

/-! ## C7: the shared-key invariant -/

/-- Invariant I2 from the spec: every occupied slot's stored shared key is
the X25519 derivation of its stored public key with the CURRENT local
private key. -/
def sharedKeyInv (x : X25519fn) (m : Manager) : Prop :=
  ∀ i < MAX_CHANNELS, (slotGet m i).addr ≠ "" →
    (slotGet m i).sharedKey = x (slotGet m i).publicKey m.privateKey

instance (x : X25519fn) (m : Manager) : Decidable (sharedKeyInv x m) := by
  unfold sharedKeyInv
  infer_instance

/-- C7 (amended): setPairedAddr-with-key and setPairedDeviceKeys derive the
stored shared key from the current private key and so preserve (and, for
the slot they touch, establish) the invariant
sharedKey(i) = X25519(publicKey(i), localPrivate).  The original claim also
listed setPersonalKeys and importCfg, but those replace the private key
without rederiving the stored shared keys of occupied slots and break the
invariant (see the counterexample). -/
theorem c7_shared_key_invariant (x : X25519fn) (m : Manager) (address : String)
    (ch ch2 : Nat) (pub pub2 : List Nat)
    (hlen : m.slots.length = MAX_CHANNELS)
    (hinv : sharedKeyInv x m) :
    sharedKeyInv x (setPairedAddrK x m address ch true pub).1
    ∧ sharedKeyInv x (setPairedDeviceKeys x m ch2 pub2).1 := by
  constructor
  · unfold setPairedAddrK
    rcases Nat.lt_or_ge ch MAX_CHANNELS with hch | hch
    · rw [if_pos hch]
      intro i hi hocc
      unfold slotGet at hocc ⊢
      simp only at hocc ⊢
      rcases eq_or_ne ch i with rfl | hne
      · rw [getD_set_self m.slots ch _ default (by rw [hlen]; exact hch)] at hocc ⊢
        rfl
      · rw [getD_set_ne m.slots ch i _ default hne] at hocc ⊢
        exact hinv i hi hocc
    · rw [if_neg (by omega)]
      exact hinv
  · unfold setPairedDeviceKeys
    rcases Nat.lt_or_ge ch2 MAX_CHANNELS with hch | hch
    · rw [if_pos hch]
      by_cases hpk : pub2.length = KEY_SIZE
      · rw [if_pos hpk]
        intro i hi hocc
        unfold slotGet at hocc ⊢
        simp only at hocc ⊢
        rcases eq_or_ne ch2 i with rfl | hne
        · rw [getD_set_self m.slots ch2 _ default (by rw [hlen]; exact hch)] at hocc ⊢
        · rw [getD_set_ne m.slots ch2 i _ default hne] at hocc ⊢
          exact hinv i hi hocc
      · rw [if_neg hpk]
        exact hinv
    · rw [if_neg (by omega)]
      exact hinv

/-- Witness for `c7_shared_key_invariant`: a blank directory (the invariant
holds vacuously) with a concrete derivation function. -/
def mgrBlank : Manager :=
  ⟨true, .IDLE, "AAAA", [default, default, default, default, default],
    List.replicate 32 0, List.replicate 32 1, ["", "", "", "", ""],
    [], 0, "", 0, 0, false, false, false, false, false, 0⟩

def xPriv : X25519fn := fun _pub priv => priv

theorem c7_shared_key_invariant_witness :
    (mgrBlank.slots.length = MAX_CHANNELS ∧ sharedKeyInv xPriv mgrBlank) ∧
    (sharedKeyInv xPriv (setPairedAddrK xPriv mgrBlank "1BBBB" 0 true (List.replicate 32 7)).1
    ∧ sharedKeyInv xPriv (setPairedDeviceKeys xPriv mgrBlank 1 (List.replicate 32 8)).1) :=
  ⟨⟨by decide, by decide⟩,
   c7_shared_key_invariant xPriv mgrBlank "1BBBB" 0 1 (List.replicate 32 7)
     (List.replicate 32 8) (by decide) (by decide)⟩

/-- C7 counterexample: pair slot 0 under private key A (stored shared key
derives from A), then call setPersonalKeys with a new key pair B.  The
stored shared key still derives from A, not from the now-current B, so the
claimed invariant fails after setPersonalKeys. -/
theorem c7_counterexample :
    sharedKeyInv xPriv (setPairedAddrK xPriv mgrBlank "1BBBB" 0 true (List.replicate 32 7)).1
    ∧ ¬ sharedKeyInv xPriv
        (setPersonalKeys (setPairedAddrK xPriv mgrBlank "1BBBB" 0 true (List.replicate 32 7)).1
          (List.replicate 32 2) (List.replicate 32 3)).1 := by
  constructor
  · decide
  · decide

/-! ## C6: pipe addressing -/

lemma foldl_set_length {α : Type} (P : Nat → Prop) [DecidablePred P] (f : Nat → α)
    (l : List Nat) (ps : List α) :
    (l.foldl (fun acc j => if P j then acc.set j (f j) else acc) ps).length =
      ps.length := by
  induction l generalizing ps with
  | nil => rfl
  | cons a as ih =>
    simp only [List.foldl_cons]
    rw [ih]
    split <;> simp

lemma foldl_set_getD {α : Type} (P : Nat → Prop) [DecidablePred P] (f : Nat → α)
    (d : α) (n : Nat) (ps : List α) (i : Nat) (hlen : n ≤ ps.length) :
    ((List.range n).foldl (fun acc j => if P j then acc.set j (f j) else acc) ps).getD i d =
      if i < n ∧ P i then f i else ps.getD i d := by
  induction n generalizing i with
  | zero => simp
  | succ k ih =>
    rw [List.range_succ, List.foldl_append, List.foldl_cons, List.foldl_nil]
    have hklen : ((List.range k).foldl
        (fun acc j => if P j then acc.set j (f j) else acc) ps).length = ps.length :=
      foldl_set_length P f _ ps
    by_cases hPk : P k
    · rw [if_pos hPk]
      rcases eq_or_ne i k with rfl | hne
      · rw [getD_set_self _ _ _ _ (by omega)]
        simp [hPk]
      · rw [getD_set_ne _ _ _ _ _ (Ne.symm hne)]
        rw [ih i (by omega)]
        by_cases hc : P i
        · by_cases hik : i < k
          · rw [if_pos ⟨hik, hc⟩, if_pos ⟨by omega, hc⟩]
          · rw [if_neg (by rintro ⟨h1, _⟩; exact hik h1),
              if_neg (by rintro ⟨h1, _⟩; omega)]
        · rw [if_neg (by rintro ⟨_, h2⟩; exact hc h2),
            if_neg (by rintro ⟨_, h2⟩; exact hc h2)]
    · rw [if_neg hPk]
      rw [ih i (by omega)]
      rcases eq_or_ne i k with rfl | hne
      · simp [hPk, Nat.lt_irrefl]
      · by_cases hc : P i
        · by_cases hik : i < k
          · rw [if_pos ⟨hik, hc⟩, if_pos ⟨by omega, hc⟩]
          · rw [if_neg (by rintro ⟨h1, _⟩; exact hik h1),
              if_neg (by rintro ⟨h1, _⟩; omega)]
        · rw [if_neg (by rintro ⟨_, h2⟩; exact hc h2),
            if_neg (by rintro ⟨_, h2⟩; exact hc h2)]

/-- C6 (amended): after begin() and after setPairedAddr(channel), the
reading pipe i+1 for the configured slot carries address
str(i) ++ radioID (the claimed invariant), but every path through
initRadio() re-opens ALL five pipes (occupied or not) with the DIFFERENT
address str(i+1) ++ radioID — the two conventions disagree, so the claimed
invariant does not survive initRadio (which runs on every pairing/receive
exit and on configuration import). -/
theorem c6_pipe_addresses (x : X25519fn) (m : Manager) (address : String)
    (pub : List Nat) (i ch : Nat) (hasKey : Bool)
    (hi : i < MAX_CHANNELS) (hch : ch < MAX_CHANNELS)
    (hplen : m.pipes.length = MAX_CHANNELS)
    (hocc : (slotGet m i).addr ≠ "") :
    (beginPipes m).pipes.getD i "" = toString i ++ m.radioID
    ∧ (setPairedAddrK x m address ch hasKey pub).1.pipes.getD ch "" =
        toString ch ++ m.radioID
    ∧ (initRadio m).pipes.getD i "" = toString (i + 1) ++ m.radioID := by
  refine ⟨?_, ?_, ?_⟩
  · unfold beginPipes
    simp only
    rw [foldl_set_getD _ _ _ _ _ _ (by omega)]
    rw [if_pos ⟨hi, hocc⟩]
  · unfold setPairedAddrK
    rw [if_pos hch]
    simp only
    exact getD_set_self m.pipes ch _ "" (by omega)
  · unfold initRadio
    simp only
    exact getD_map_range _ _ _ _ hi

/-- Witness for `c6_pipe_addresses` on the concrete two-device directory. -/
theorem c6_pipe_addresses_witness :
    ((0 : Nat) < MAX_CHANNELS ∧ (2 : Nat) < MAX_CHANNELS ∧
      mgrTwoPaired.pipes.length = MAX_CHANNELS ∧ (slotGet mgrTwoPaired 0).addr ≠ "") ∧
    ((beginPipes mgrTwoPaired).pipes.getD 0 "" = toString 0 ++ mgrTwoPaired.radioID
    ∧ (setPairedAddrK xPriv mgrTwoPaired "3DDDD" 2 true (List.replicate 32 4)).1.pipes.getD 2 "" =
        toString 2 ++ mgrTwoPaired.radioID
    ∧ (initRadio mgrTwoPaired).pipes.getD 0 "" = toString (0 + 1) ++ mgrTwoPaired.radioID) :=
  ⟨⟨by decide, by decide, by decide, by decide⟩,
   c6_pipe_addresses xPriv mgrTwoPaired "3DDDD" (List.replicate 32 4) 0 2 true
     (by decide) (by decide) (by decide) (by decide)⟩

/-- C6 counterexample: slot 0 of `mgrTwoPaired` is occupied, but after
initRadio (run on every pairing/receive exit) pipe 1 listens on
"1AAAA" = str(0+1) ++ radioID, not on str(0) ++ radioID = "0AAAA" as the
claimed invariant requires. -/
theorem c6_counterexample :
    (slotGet (initRadio mgrTwoPaired) 0).addr ≠ ""
    ∧ (initRadio mgrTwoPaired).pipes.getD 0 "" = "1AAAA"
    ∧ "1AAAA" ≠ toString 0 ++ (initRadio mgrTwoPaired).radioID := by
  refine ⟨by decide, ?_, by decide⟩
  unfold initRadio mgrTwoPaired
  decide

/-! ## C9: send rejection and atomicity

`sendMsg` / `sendMsgToAddr` (RadioManager.cpp:202-297) and one `sendData`
tick (730-779).  `hasStatus` models whether a status out-pointer was
supplied; the `Option Nat` in the result is the value left in `*status`
(the source stores -1 into a uint8_t, i.e. 255).  `iv` is the RNG input
consumed if encryption runs, `writeOk` the radio auto-ACK outcome of a
write attempt. -/

/-- The uint8_t value stored by `*status = -1`. -/
def STATUS_ERR : Nat := 255

/-- `RadioManager::encryptMessage` (RadioManager.cpp:1173-1178); the slot's
SimpleCha2 advances its counter as a side effect. -/
def encryptMessage (ks : Keystream) (m : Manager) (channel : Nat) (iv msg : List Nat) :
    Manager × List Nat :=
  if channel < MAX_CHANNELS then
    let slot := slotGet m channel
    let r := chaEncrypt ks slot.cha iv msg
    ({ m with slots := m.slots.set channel { slot with cha := r.1 } }, r.2)
  else (m, [])

/-- One `sendData` tick (RadioManager.cpp:730-779).  Returns the manager
and the status value written during this call, if any. -/
def sendDataOnce (m : Manager) (writeOk : Bool) : Manager × Option Nat :=
  let msgSize := m.outgoingMsg.length
  if m.outgoingMsgIndex < msgSize then
    let packetSize := min PAYLOAD_SIZE (msgSize - m.outgoingMsgIndex)
    if ¬ writeOk then ({ m with currentState := .IDLE }, some STATUS_ERR)
    else
      let m1 := { m with outgoingMsgIndex := m.outgoingMsgIndex + packetSize }
      if msgSize ≤ m1.outgoingMsgIndex then ({ m1 with currentState := .IDLE }, some 1)
      else (m1, none)
  else (m, none)

/-- `RadioManager::sendMsgToAddr` (RadioManager.cpp:234-287). -/
def sendMsgToAddr (ks : Keystream) (m : Manager) (msg : List Nat) (targetAddr : String)
    (hasStatus encryption : Bool) (iv : List Nat) (writeOk : Bool) :
    Manager × Bool × Option Nat :=
  if ¬ m.isEnabled then (m, false, if hasStatus then some STATUS_ERR else none)
  else if m.currentState ≠ .IDLE ∨ msg.length > MAX_MSG_SIZE then
    (m, false, if hasStatus then some STATUS_ERR else none)
  else
    let m1 := { m with currentState := .TRANSMITTING }
    let tc := (List.range MAX_CHANNELS).find? (fun i => (slotGet m1 i).addr == targetAddr)
    let em : Manager × List Nat :=
      if encryption then
        match tc with
        | some ch => encryptMessage ks m1 ch iv msg
        | none => (m1, msg)
      else (m1, msg)
    let m2 := { em.1 with outgoingMsg := em.2, outgoingMsgIndex := 0, outgoingTargetAddr := targetAddr }
    let sd := sendDataOnce m2 writeOk
    (sd.1, true, if hasStatus then some (sd.2.getD 0) else none)

/-- `RadioManager::sendMsg` (RadioManager.cpp:202-213).  `channel` is a
uint8_t, so the source's `channel < 0` arm is vacuous. -/
def sendMsg (ks : Keystream) (m : Manager) (msg : List Nat) (channel : Nat)
    (hasStatus encryption : Bool) (iv : List Nat) (writeOk : Bool) :
    Manager × Bool × Option Nat :=
  if ¬ m.isEnabled then (m, false, if hasStatus then some STATUS_ERR else none)
  else if MAX_CHANNELS ≤ channel ∨ (slotGet m channel).addr = "" then
    (m, false, if hasStatus then some STATUS_ERR else none)
  else sendMsgToAddr ks m msg (slotGet m channel).addr hasStatus encryption iv writeOk

/-- C9: a call to sendMsg made while disabled, or on an invalid or unpaired
channel, or while currentState is not IDLE, or with a message longer than
MAX_MSG_SIZE, returns false immediately, sets *status to -1 (as uint8_t,
255) when a status pointer is supplied, and leaves the entire manager state
(currentState, directory, mailboxes) unchanged; likewise sendMsgToAddr for
its three conditions (disabled, busy, oversize). -/
theorem c9_send_rejection (ks : Keystream) (m : Manager) (msg : List Nat)
    (channel : Nat) (targetAddr : String) (hasStatus encryption writeOk : Bool)
    (iv : List Nat)
    (h1 : ¬ m.isEnabled ∨ m.currentState ≠ .IDLE ∨ msg.length > MAX_MSG_SIZE ∨
          MAX_CHANNELS ≤ channel ∨ (slotGet m channel).addr = "")
    (h2 : ¬ m.isEnabled ∨ m.currentState ≠ .IDLE ∨ msg.length > MAX_MSG_SIZE) :
    sendMsg ks m msg channel hasStatus encryption iv writeOk =
      (m, false, if hasStatus then some STATUS_ERR else none)
    ∧ sendMsgToAddr ks m msg targetAddr hasStatus encryption iv writeOk =
      (m, false, if hasStatus then some STATUS_ERR else none) := by
  have haddr : ∀ ta, ¬ m.isEnabled ∨ m.currentState ≠ .IDLE ∨ msg.length > MAX_MSG_SIZE →
      sendMsgToAddr ks m msg ta hasStatus encryption iv writeOk =
      (m, false, if hasStatus then some STATUS_ERR else none) := by
    intro ta h
    unfold sendMsgToAddr
    by_cases he : m.isEnabled
    · rw [if_neg (by simpa using he)]
      rw [if_pos (by rcases h with h | h; exact absurd he h; exact h)]
    · rw [if_pos (by simpa using he)]
  refine ⟨?_, haddr targetAddr h2⟩
  unfold sendMsg
  by_cases he : m.isEnabled
  · rw [if_neg (by simpa using he)]
    by_cases hch : MAX_CHANNELS ≤ channel ∨ (slotGet m channel).addr = ""
    · rw [if_pos hch]
    · rw [if_neg hch]
      apply haddr
      rcases h1 with h | h | h | h | h
      · exact absurd he h
      · exact Or.inr (Or.inl h)
      · exact Or.inr (Or.inr h)
      · exact absurd (Or.inl h) hch
      · exact absurd (Or.inr h) hch
  · rw [if_pos (by simpa using he)]

/-- Witness for `c9_send_rejection`: a disabled manager rejects both calls. -/
def mgrDisabled : Manager :=
  ⟨false, .IDLE, "AAAA", [default, default, default, default, default],
    List.replicate 32 0, List.replicate 32 1, ["", "", "", "", ""],
    [], 0, "", 0, 0, false, false, false, false, false, 0⟩

theorem c9_send_rejection_witness :
    ((¬ mgrDisabled.isEnabled ∨ mgrDisabled.currentState ≠ .IDLE ∨
        ([7] : List Nat).length > MAX_MSG_SIZE ∨ MAX_CHANNELS ≤ 0 ∨
        (slotGet mgrDisabled 0).addr = "") ∧
      (¬ mgrDisabled.isEnabled ∨ mgrDisabled.currentState ≠ .IDLE ∨
        ([7] : List Nat).length > MAX_MSG_SIZE)) ∧
    (sendMsg (fun _ _ _ => 0) mgrDisabled [7] 0 true false [] true =
      (mgrDisabled, false, some STATUS_ERR)
    ∧ sendMsgToAddr (fun _ _ _ => 0) mgrDisabled [7] "1BBBB" true false [] true =
      (mgrDisabled, false, some STATUS_ERR)) :=
  ⟨⟨by decide, by decide⟩,
   c9_send_rejection (fun _ _ _ => 0) mgrDisabled [7] 0 "1BBBB" true false true []
     (by decide) (by decide)⟩

/-! ## Base64 (src Base64.h) -/

/-- The encoding table (Base64.h:12), as ASCII codes. -/
def b64EncTable : List Nat :=
  "ABCDEFGHIJKLMNOPQRSTUVWXYZabcdefghijklmnopqrstuvwxyz0123456789+/".toList.map Char.toNat

/-- One output quad for an input triple (Base64.h:17-27). -/
def b64Quad (a b c : Nat) : List Nat :=
  let triple := a * 65536 + b * 256 + c
  [b64EncTable.getD (triple / 262144 % 64) 0, b64EncTable.getD (triple / 4096 % 64) 0,
   b64EncTable.getD (triple / 64 % 64) 0, b64EncTable.getD (triple % 64) 0]

/-- The encoder main loop: missing bytes of a final partial triple read as 0. -/
def b64Chars : List Nat → List Nat
  | [] => []
  | [a] => b64Quad a 0 0
  | [a, b] => b64Quad a b 0
  | a :: b :: c :: rest => b64Quad a b c ++ b64Chars rest

/-- `Base64::encode` (Base64.h:11-41): emit quads, then overwrite the tail
with '=' (61) according to length % 3. -/
def b64encodeList (data : List Nat) : List Nat :=
  let e := b64Chars data
  match data.length % 3 with
  | 1 => e.take (e.length - 2) ++ [61, 61]
  | 2 => e.take (e.length - 1) ++ [61]
  | _ => e

def natsToStr (l : List Nat) : String := String.mk (l.map Char.ofNat)

def strToNats (s : String) : List Nat := s.toList.map Char.toNat

def b64encode (data : List Nat) : String := natsToStr (b64encodeList data)

/-- The decoding table (Base64.h:48-64). -/
def b64DecTable : List Nat :=
  [64, 64, 64, 64, 64, 64, 64, 64, 64, 64, 64, 64, 64, 64, 64, 64,
   64, 64, 64, 64, 64, 64, 64, 64, 64, 64, 64, 64, 64, 64, 64, 64,
   64, 64, 64, 64, 64, 64, 64, 64, 64, 64, 64, 62, 64, 64, 64, 63,
   52, 53, 54, 55, 56, 57, 58, 59, 60, 61, 64, 64, 64, 64, 64, 64,
   64,  0,  1,  2,  3,  4,  5,  6,  7,  8,  9, 10, 11, 12, 13, 14,
   15, 16, 17, 18, 19, 20, 21, 22, 23, 24, 25, 64, 64, 64, 64, 64,
   64, 26, 27, 28, 29, 30, 31, 32, 33, 34, 35, 36, 37, 38, 39, 40,
   41, 42, 43, 44, 45, 46, 47, 48, 49, 50, 51, 64, 64, 64, 64, 64,
   64, 64, 64, 64, 64, 64, 64, 64, 64, 64, 64, 64, 64, 64, 64, 64,
   64, 64, 64, 64, 64, 64, 64, 64, 64, 64, 64, 64, 64, 64, 64, 64,
   64, 64, 64, 64, 64, 64, 64, 64, 64, 64, 64, 64, 64, 64, 64, 64,
   64, 64, 64, 64, 64, 64, 64, 64, 64, 64, 64, 64, 64, 64, 64, 64,
   64, 64, 64, 64, 64, 64, 64, 64, 64, 64, 64, 64, 64, 64, 64, 64,
   64, 64, 64, 64, 64, 64, 64, 64, 64, 64, 64, 64, 64, 64, 64, 64,
   64, 64, 64, 64, 64, 64, 64, 64, 64, 64, 64, 64, 64, 64, 64, 64,
   64, 64, 64, 64, 64, 64, 64, 64, 64, 64, 64, 64, 64, 64, 64, 64]

/-- The decoder main loop (Base64.h:74-88): a '=' (61) contributes sextet 0;
each quad yields three bytes (the overlong tail is trimmed by the caller). -/
def b64DecQuads : List Nat → List Nat
  | a :: b :: c :: d :: rest =>
    let sa := if a == 61 then 0 else b64DecTable.getD a 0
    let sb := if b == 61 then 0 else b64DecTable.getD b 0
    let sc := if c == 61 then 0 else b64DecTable.getD c 0
    let sd := if d == 61 then 0 else b64DecTable.getD d 0
    let triple := sa * 262144 + sb * 4096 + sc * 64 + sd
    [triple / 65536 % 256, triple / 256 % 256, triple % 256] ++ b64DecQuads rest
  | _ => []

/-- `Base64::decodedLength` (Base64.h:110-115). -/
def b64decodedLength (inp : List Nat) : Nat :=
  let p1 := if 0 < inp.length ∧ inp.getD (inp.length - 1) 0 == 61 then 1 else 0
  let p2 := if 1 < inp.length ∧ inp.getD (inp.length - 2) 0 == 61 then 1 else 0
  inp.length / 4 * 3 - (p1 + p2)

/-- `Base64::decode` Bytes overload (Base64.h:93-104): the output is sized
to `decodedLength` (zero-filled by `resize`); if the input length is not a
multiple of 4 the fill loop never runs and the zeros remain. -/
def b64decode (s : String) : List Nat :=
  let inp := strToNats s
  let n := b64decodedLength inp
  if inp.length % 4 ≠ 0 then List.replicate n 0
  else (b64DecQuads inp).take n

/-! ## JSON documents (C4: exportCfg / importCfg)

ArduinoJson is external: its text serializer/parser pair is the identity
on documents, so configuration export and import are modelled at the
parsed-document level.  `serializeJVal` still renders the text that
`getPairedDevicesJson` returns, because `exportCfg` embeds that text as a
STRING value (RadioManager.cpp:1259 assigns the `String` returned by
`getPairedDevicesJson()`, which ArduinoJson stores as a string member, not
as a nested object).  The values involved are addresses and base64 text,
which contain no characters needing JSON escaping. -/

inductive JVal where
  | jNull : JVal
  | jStr : String → JVal
  | jArr : List JVal → JVal
  | jObj : List (String × JVal) → JVal

mutual

def serializeJVal : JVal → String
  | .jNull => "null"
  | .jStr s => "\"" ++ s ++ "\""
  | .jArr a => "[" ++ serializeJList a ++ "]"
  | .jObj o => "\x7b" ++ serializeJFields o ++ "\x7d"

def serializeJList : List JVal → String
  | [] => ""
  | [x] => serializeJVal x
  | x :: y :: xs => serializeJVal x ++ "," ++ serializeJList (y :: xs)

def serializeJFields : List (String × JVal) → String
  | [] => ""
  | [(k, v)] => "\"" ++ k ++ "\":" ++ serializeJVal v
  | (k, v) :: y :: xs => "\"" ++ k ++ "\":" ++ serializeJVal v ++ "," ++ serializeJFields (y :: xs)

end

/-- `doc[key]` member access. -/
def jget (j : JVal) (k : String) : JVal :=
  match j with
  | .jObj o =>
    match o.find? (fun p => p.1 == k) with
    | some p => p.2
    | none => .jNull
  | _ => .jNull

/-- `doc[i]` array access (missing indices are null). -/
def jidx (j : JVal) (i : Nat) : JVal :=
  match j with
  | .jArr a => a.getD i .jNull
  | _ => .jNull

def JVal.isObj : JVal → Bool
  | .jObj _ => true
  | _ => false

def JVal.isArr : JVal → Bool
  | .jArr _ => true
  | _ => false

def JVal.isNull : JVal → Bool
  | .jNull => true
  | _ => false

/-- `as<String>()` on a variant: the string itself for string members; the
null/absent case yields the empty string. -/
def JVal.asStr : JVal → String
  | .jStr s => s
  | _ => ""

/-- `RadioManager::getPairedDevicesJson` document (RadioManager.cpp:929-944):
"addr" holds "0" for empty slots and the address otherwise; "pubKey" is
created only when some slot is occupied (ArduinoJson materialises skipped
indices as null). -/
def getPairedDevicesDoc (m : Manager) (keys : Bool) : JVal :=
  let addrArr := (List.range MAX_CHANNELS).map (fun i =>
    JVal.jStr (if (slotGet m i).addr = "" then "0" else (slotGet m i).addr))
  let pubArr := (List.range MAX_CHANNELS).map (fun i =>
    if (slotGet m i).addr = "" then JVal.jNull
    else JVal.jStr (b64encode (slotGet m i).publicKey))
  if keys ∧ (List.range MAX_CHANNELS).any (fun i => ¬ (slotGet m i).addr = "") then
    .jObj [("addr", .jArr addrArr), ("pubKey", .jArr pubArr)]
  else .jObj [("addr", .jArr addrArr)]

def getPairedDevicesJson (m : Manager) (keys : Bool) : String :=
  serializeJVal (getPairedDevicesDoc m keys)

/-- `RadioManager::setPairedDevicesJson` (RadioManager.cpp:953-977) at the
document level: require an "addr" array; per slot, null entries are
skipped, "0" clears the slot, anything else is installed with the decoded
public key; finally initRadio reopens the pipes. -/
def setPairedDevicesDoc (x : X25519fn) (m : Manager) (doc : JVal) : Manager × Bool :=
  if ¬ (jget doc "addr").isArr then (m, false)
  else
    let m1 := (List.range MAX_CHANNELS).foldl (fun mm i =>
      let v := jidx (jget doc "addr") i
      if v.isNull then mm
      else if v.asStr == "0" then clearPairedAddr mm i
      else (setPairedAddrB x mm v.asStr i (b64decode (jidx (jget doc "pubKey") i).asStr)).1) m
    (initRadio m1, true)

/-- `RadioManager::getPersonalKeys` (RadioManager.cpp:1006-1011). -/
def getPersonalKeys (m : Manager) : List Nat × List Nat := (m.publicKey, m.privateKey)

/-- `RadioManager::exportCfg` (RadioManager.cpp:1256-1270): the directory
is embedded as the STRING returned by getPairedDevicesJson; the personal
keys are a nested object of base64 strings. -/
def exportCfg (m : Manager) : JVal :=
  .jObj [("pairedDevices", .jStr (getPairedDevicesJson m true)),
         ("personalKeys", .jObj [("publicKey", .jStr (b64encode (getPersonalKeys m).1)),
                                 ("privateKey", .jStr (b64encode (getPersonalKeys m).2))])]

/-- `RadioManager::importCfg` (RadioManager.cpp:1278-1303) at the document
level (deserializeJson's text parsing is external; a parse error returns
false before this point).  personalKeys are imported when that member is an
object; pairedDevices only when THAT member is an object — a string member
(which is what exportCfg produces) is skipped. -/
def importCfg (x : X25519fn) (m : Manager) (doc : JVal) : Manager × Bool :=
  let m1 := if (jget doc "personalKeys").isObj then
      (setPersonalKeys m (b64decode (jget (jget doc "personalKeys") "publicKey").asStr)
        (b64decode (jget (jget doc "personalKeys") "privateKey").asStr)).1
    else m
  if (jget doc "pairedDevices").isObj then
    ((setPairedDevicesDoc x m1 (jget doc "pairedDevices")).1, true)
  else (m1, true)

/-- C4 (code bug, evaluated at a failing input): exportCfg of a manager
with occupied slots embeds the directory under "pairedDevices" as a JSON
STRING, but importCfg reinstalls the directory only when that member is a
JSON OBJECT.  Importing the export into a freshly constructed manager
therefore restores the personal keys but leaves every slot empty — the
directory does not round-trip, contradicting the claim (and the evident
intent of the exportCfg/importCfg pair). -/
theorem c4_export_import_eval :
    (importCfg xPriv mgrBlank (exportCfg mgrTwoPaired)).1.slots.map Slot.addr =
      ["", "", "", "", ""]
    ∧ (importCfg xPriv mgrBlank (exportCfg mgrTwoPaired)).1.publicKey =
        mgrTwoPaired.publicKey
    ∧ (importCfg xPriv mgrBlank (exportCfg mgrTwoPaired)).1.privateKey =
        mgrTwoPaired.privateKey
    ∧ mgrTwoPaired.slots.map Slot.addr ≠ ["", "", "", "", ""]
    ∧ (jget (exportCfg mgrTwoPaired) "pairedDevices").isObj = false := by
  decide

/-! ## C5: pairing timeout (startPairing / handlePairing / loop)

`handlePairing` (RadioManager.cpp:474-725) is modelled for ticks on which
`radio.available()` returns false (no inbound frame — the configuration of
claim C5 and of spec scenario F, a device pairing alone).  The four read
branches L1 (480-492), L3 (512-557), T2 (613-639) and T4 (660-712) are each
guarded by `radio.available()` and cannot fire on such ticks; every other
branch is modelled, including the write attempts whose auto-ACK outcome is
the input `writeOk` (false when no peer is present).  The temporary key
buffers (`tempPublicKey`, `tempSharedKey`, `tempPayload`, `tempCha`) are
crypto scratch that only the read branches consume and are not represented.
None of the modelled branches touches `slots`; in the source, all
`setPairedAddr` / `clearPairedUID` calls sit inside the read branches. -/

/-- The listen-to-transmit role flip (RadioManager.cpp:584-591): note that
it RESETS `pairingStartTime` to the current time. -/
def pairFlip (m : Manager) (now : Nat) : Manager :=
  if ¬ m.gotPubKey ∧ now - m.pairingStartTime > PAIRING_LISTEN_TIME then
    { m with currentState := .PAIRING_TRANSMIT, pairingStartTime := now }
  else m

/-- The overall pairing timeout check (RadioManager.cpp:718-724), run after
the switch unless a branch returned early. -/
def pairTimeout (m : Manager) (now : Nat) : Manager :=
  if now - m.pairingStartTime > PAIRING_TIMEOUT then
    initRadio { m with currentState := .IDLE }
  else m

def handlePairingNoRx (m : Manager) (now : Nat) (writeOk : Bool) : Manager :=
  match m.currentState with
  | .PAIRING_LISTEN =>
    let m1 := if m.gotPubKey ∧ ¬ m.sentPubKey ∧ now - m.lastPairingAttempt > PAIRING_INTERVAL then
        { m with lastPairingAttempt := now, sentPubKey := writeOk, pipes := m.pipes.set 0 "CFGTX" }
      else m
    if m1.gotAck ∧ ¬ m1.sentAck then
      if writeOk then
        initRadio { m1 with lastPairingAttempt := now, sentAck := true, currentState := .IDLE }
      else
        pairTimeout (pairFlip { m1 with lastPairingAttempt := now, pipes := m1.pipes.set 0 "CFGTX" } now) now
    else pairTimeout (pairFlip m1 now) now
  | .PAIRING_TRANSMIT =>
    let m1 := if ¬ m.sentPubKey ∧ now - m.lastPairingAttempt > PAIRING_INTERVAL then
        { m with lastPairingAttempt := now, sentPubKey := writeOk, pipes := m.pipes.set 0 "CFGRX" }
      else m
    let m2 := if m1.gotPubKey ∧ ¬ m1.sentAck ∧ now - m1.lastPairingAttempt > PAIRING_INTERVAL then
        { m1 with lastPairingAttempt := now, sentAck := writeOk, pipes := m1.pipes.set 0 "CFGRX" }
      else m1
    pairTimeout m2 now
  | _ => pairTimeout m now

/-- `RadioManager::startPairing` (RadioManager.cpp:444-469). -/
def startPairing (m : Manager) (now : Nat) : Manager × Bool :=
  if ¬ m.isEnabled then (m, false)
  else if m.currentState = .IDLE then
    ({ m with currentState := .PAIRING_LISTEN, pairingStartTime := now, isUnpairReq := false, gotPubKey := false, sentPubKey := false, gotAck := false, sentAck := false, pairingChannel := getAvailableChannel m, pipes := m.pipes.set 0 "CFGTX" }, true)
  else (m, false)

/-- One `loop()` tick (RadioManager.cpp:102-132) with no inbound frame:
pairing states run `handlePairing`; an IDLE tick with nothing available
only frees scratch state.  (TRANSMITTING/RECEIVING do not occur in the
frameless pairing runs considered here.) -/
def loopNoRx (m : Manager) (now : Nat) (writeOk : Bool) : Manager :=
  if ¬ m.isEnabled then m
  else match m.currentState with
    | .PAIRING_LISTEN => handlePairingNoRx m now writeOk
    | .PAIRING_TRANSMIT => handlePairingNoRx m now writeOk
    | _ => m

def pairRun (m : Manager) : List (Nat × Bool) → Manager
  | [] => m
  | (t, w) :: rest => pairRun (loopNoRx m t w) rest

lemma pairTimeout_slots (m : Manager) (now : Nat) :
    (pairTimeout m now).slots = m.slots := by
  unfold pairTimeout initRadio
  split <;> rfl

lemma pairFlip_slots (m : Manager) (now : Nat) :
    (pairFlip m now).slots = m.slots := by
  unfold pairFlip
  split <;> rfl

lemma handlePairingNoRx_slots (m : Manager) (now : Nat) (w : Bool) :
    (handlePairingNoRx m now w).slots = m.slots := by
  unfold handlePairingNoRx
  cases hcs : m.currentState <;>
    simp only [hcs] <;>
    (repeat' split) <;>
    simp [pairTimeout, pairFlip, initRadio] <;>
    (repeat' split) <;>
    rfl

lemma loopNoRx_slots (m : Manager) (now : Nat) (w : Bool) :
    (loopNoRx m now w).slots = m.slots := by
  unfold loopNoRx
  split
  · rfl
  · cases hcs : m.currentState <;> simp only [hcs] <;>
      first
      | exact handlePairingNoRx_slots m now w
      | rfl

/-- No frameless run ever changes a paired slot. -/
lemma pairRun_slots (ts : List (Nat × Bool)) : ∀ m : Manager,
    (pairRun m ts).slots = m.slots := by
  induction ts with
  | nil => intro m; rfl
  | cons p rest ih =>
    intro m
    obtain ⟨t, w⟩ := p
    show (pairRun (loopNoRx m t w) rest).slots = m.slots
    rw [ih, loopNoRx_slots]

lemma pairRun_append (m : Manager) (l1 l2 : List (Nat × Bool)) :
    pairRun m (l1 ++ l2) = pairRun (pairRun m l1) l2 := by
  induction l1 generalizing m with
  | nil => rfl
  | cons p rest ih =>
    obtain ⟨t, w⟩ := p
    show pairRun (loopNoRx m t w) (rest ++ l2) = _
    exact ih (loopNoRx m t w)

/-- A tick in the listen phase with no pubkey, no ack, and within the
listen window changes nothing. -/
lemma listen_tick_id (m : Manager) (now : Nat) (w : Bool)
    (hst : m.currentState = .PAIRING_LISTEN)
    (hgp : m.gotPubKey = false) (hga : m.gotAck = false)
    (hle : now ≤ m.pairingStartTime + PAIRING_LISTEN_TIME) :
    handlePairingNoRx m now w = m := by
  have hfl : (now - m.pairingStartTime > PAIRING_LISTEN_TIME) = False := by
    simp only [PAIRING_LISTEN_TIME] at *
    simp only [eq_iff_iff, iff_false]
    omega
  have hto : (now - m.pairingStartTime > PAIRING_TIMEOUT) = False := by
    simp only [PAIRING_TIMEOUT, PAIRING_LISTEN_TIME] at *
    simp only [eq_iff_iff, iff_false]
    omega
  unfold handlePairingNoRx pairFlip pairTimeout
  simp [hst, hgp, hga, hfl, hto]

/-- The first tick past the listen window flips to the transmit role and
RESTARTS the pairing clock at the current time. -/
lemma listen_flip (m : Manager) (now : Nat) (w : Bool)
    (hst : m.currentState = .PAIRING_LISTEN)
    (hgp : m.gotPubKey = false) (hga : m.gotAck = false)
    (hgt : m.pairingStartTime + PAIRING_LISTEN_TIME < now) :
    handlePairingNoRx m now w =
      { m with currentState := .PAIRING_TRANSMIT, pairingStartTime := now } := by
  have hfl : (now - m.pairingStartTime > PAIRING_LISTEN_TIME) = True := by
    simp only [PAIRING_LISTEN_TIME] at *
    simp only [eq_iff_iff, iff_true]
    omega
  unfold handlePairingNoRx pairFlip pairTimeout
  simp [hst, hgp, hga, hfl, PAIRING_TIMEOUT]

/-- A transmit-phase tick with no peer pubkey and within the (restarted)
timeout window only retries the write: at most `lastPairingAttempt`,
`sentPubKey` and the configuration pipe change. -/
lemma transmit_tick (m : Manager) (now : Nat) (w : Bool)
    (hst : m.currentState = .PAIRING_TRANSMIT)
    (hgp : m.gotPubKey = false)
    (hle : now ≤ m.pairingStartTime + PAIRING_TIMEOUT) :
    ∃ la sp ps, handlePairingNoRx m now w =
      { m with lastPairingAttempt := la, sentPubKey := sp, pipes := ps } := by
  have hto : (now - m.pairingStartTime > PAIRING_TIMEOUT) = False := by
    simp only [PAIRING_TIMEOUT] at *
    simp only [eq_iff_iff, iff_false]
    omega
  by_cases h1 : m.sentPubKey = false ∧ PAIRING_INTERVAL < now - m.lastPairingAttempt
  · refine ⟨now, w, m.pipes.set 0 "CFGRX", ?_⟩
    unfold handlePairingNoRx pairTimeout
    simp [hst, h1, hgp, hto]
  · refine ⟨m.lastPairingAttempt, m.sentPubKey, m.pipes, ?_⟩
    unfold handlePairingNoRx pairTimeout
    simp [hst, h1, hgp, hto]
    conv_rhs => rw [← hst, ← hgp]

/-- The first transmit-phase tick past the (restarted) timeout window
returns to IDLE without touching the slots. -/
lemma transmit_timeout (m : Manager) (now : Nat) (w : Bool)
    (hst : m.currentState = .PAIRING_TRANSMIT)
    (hgp : m.gotPubKey = false)
    (hgt : m.pairingStartTime + PAIRING_TIMEOUT < now) :
    (handlePairingNoRx m now w).currentState = .IDLE
    ∧ (handlePairingNoRx m now w).slots = m.slots := by
  refine ⟨?_, handlePairingNoRx_slots m now w⟩
  have hto : (now - m.pairingStartTime > PAIRING_TIMEOUT) = True := by
    simp only [PAIRING_TIMEOUT] at *
    simp only [eq_iff_iff, iff_true]
    omega
  by_cases h1 : m.sentPubKey = false ∧ PAIRING_INTERVAL < now - m.lastPairingAttempt
  · unfold handlePairingNoRx pairTimeout initRadio
    simp [hst, h1, hgp, hto]
  · unfold handlePairingNoRx pairTimeout initRadio
    simp [hst, h1, hgp, hto]

lemma listen_run (ts : List (Nat × Bool)) : ∀ m : Manager,
    m.isEnabled = true → m.currentState = .PAIRING_LISTEN →
    m.gotPubKey = false → m.gotAck = false →
    (∀ p ∈ ts, p.1 ≤ m.pairingStartTime + PAIRING_LISTEN_TIME) →
    pairRun m ts = m := by
  induction ts with
  | nil => intro m _ _ _ _ _; rfl
  | cons p rest ih =>
    intro m hen hst hgp hga hts
    obtain ⟨t, w⟩ := p
    show pairRun (loopNoRx m t w) rest = m
    have hstep : loopNoRx m t w = m := by
      unfold loopNoRx
      rw [if_neg (by simp [hen])]
      simp only [hst]
      exact listen_tick_id m t w hst hgp hga (hts (t, w) (by simp))
    rw [hstep]
    exact ih m hen hst hgp hga (fun p hp => hts p (by simp [hp]))

/-- The transmit-phase invariant: role, restarted clock, no peer key,
unchanged slots, still enabled. -/
def TPhase (m : Manager) (t1 : Nat) (S : List Slot) : Prop :=
  m.isEnabled = true ∧ m.currentState = .PAIRING_TRANSMIT ∧
  m.pairingStartTime = t1 ∧ m.gotPubKey = false ∧ m.slots = S

lemma transmit_run (ts : List (Nat × Bool)) (t1 : Nat) (S : List Slot) :
    ∀ m : Manager, TPhase m t1 S → (∀ p ∈ ts, p.1 ≤ t1 + PAIRING_TIMEOUT) →
    TPhase (pairRun m ts) t1 S := by
  induction ts with
  | nil => intro m h _; exact h
  | cons p rest ih =>
    intro m h hts
    obtain ⟨t, w⟩ := p
    obtain ⟨hen, hst, hpt, hgp, hS⟩ := h
    show TPhase (pairRun (loopNoRx m t w) rest) t1 S
    have hstep : ∃ la sp ps, loopNoRx m t w =
        { m with lastPairingAttempt := la, sentPubKey := sp, pipes := ps } := by
      have hL : loopNoRx m t w = handlePairingNoRx m t w := by
        unfold loopNoRx
        rw [if_neg (by simp [hen]), hst]
      rw [hL]
      exact transmit_tick m t w hst hgp (by rw [hpt]; exact hts (t, w) (by simp))
    obtain ⟨la, sp, ps, he⟩ := hstep
    rw [he]
    exact ih _ ⟨hen, hst, hpt, hgp, hS⟩ (fun p hp => hts p (by simp [hp]))

/-- C5 (amended): a frameless pairing run (startPairing succeeds, loop()
ticks with no peer frame ever arriving) never changes any paired slot, and
returns to IDLE — but NOT within PAIRING_TIMEOUT (10 s) of startPairing():
the listen-to-transmit role flip at PAIRING_LISTEN_TIME (5 s) RESTARTS the
pairing clock, so the device is back to IDLE only by the first tick more
than PAIRING_TIMEOUT after the flip, about
PAIRING_LISTEN_TIME + PAIRING_TIMEOUT ≈ 15 s after the start (see the
counterexample for the 10 s reading). -/
theorem c5_pairing_timeout (m0 : Manager) (t0 t1 t2 : Nat) (w1 w2 : Bool)
    (ts1 ts2 tsAny : List (Nat × Bool))
    (hen : m0.isEnabled = true) (hidle : m0.currentState = .IDLE)
    (h1 : ∀ p ∈ ts1, p.1 ≤ t0 + PAIRING_LISTEN_TIME)
    (ht1 : t0 + PAIRING_LISTEN_TIME < t1)
    (h2 : ∀ p ∈ ts2, p.1 ≤ t1 + PAIRING_TIMEOUT)
    (ht2 : t1 + PAIRING_TIMEOUT < t2) :
    (startPairing m0 t0).2 = true
    ∧ (pairRun (startPairing m0 t0).1 (ts1 ++ ((t1, w1) :: (ts2 ++ [(t2, w2)])))).currentState = .IDLE
    ∧ (pairRun (startPairing m0 t0).1 (ts1 ++ ((t1, w1) :: (ts2 ++ [(t2, w2)])))).slots = m0.slots
    ∧ (pairRun (startPairing m0 t0).1 tsAny).slots = m0.slots := by
  have hms : startPairing m0 t0 =
      ({ m0 with currentState := .PAIRING_LISTEN, pairingStartTime := t0, isUnpairReq := false, gotPubKey := false, sentPubKey := false, gotAck := false, sentAck := false, pairingChannel := getAvailableChannel m0, pipes := m0.pipes.set 0 "CFGTX" }, true) := by
    unfold startPairing
    rw [if_neg (by simp [hen]), if_pos hidle]
  rw [hms]
  refine ⟨rfl, ?_⟩
  have hrun1 : pairRun ({ m0 with currentState := .PAIRING_LISTEN, pairingStartTime := t0, isUnpairReq := false, gotPubKey := false, sentPubKey := false, gotAck := false, sentAck := false, pairingChannel := getAvailableChannel m0, pipes := m0.pipes.set 0 "CFGTX" } : Manager) ts1 =
      { m0 with currentState := .PAIRING_LISTEN, pairingStartTime := t0, isUnpairReq := false, gotPubKey := false, sentPubKey := false, gotAck := false, sentAck := false, pairingChannel := getAvailableChannel m0, pipes := m0.pipes.set 0 "CFGTX" } :=
    listen_run ts1 _ hen rfl rfl rfl h1
  have hflip : loopNoRx ({ m0 with currentState := .PAIRING_LISTEN, pairingStartTime := t0, isUnpairReq := false, gotPubKey := false, sentPubKey := false, gotAck := false, sentAck := false, pairingChannel := getAvailableChannel m0, pipes := m0.pipes.set 0 "CFGTX" } : Manager) t1 w1 =
      { m0 with currentState := .PAIRING_TRANSMIT, pairingStartTime := t1, isUnpairReq := false, gotPubKey := false, sentPubKey := false, gotAck := false, sentAck := false, pairingChannel := getAvailableChannel m0, pipes := m0.pipes.set 0 "CFGTX" } := by
    unfold loopNoRx
    rw [if_neg (by simp [hen])]
    simp only []
    exact listen_flip _ t1 w1 rfl rfl rfl ht1
  have htr : TPhase (pairRun ({ m0 with currentState := .PAIRING_TRANSMIT, pairingStartTime := t1, isUnpairReq := false, gotPubKey := false, sentPubKey := false, gotAck := false, sentAck := false, pairingChannel := getAvailableChannel m0, pipes := m0.pipes.set 0 "CFGTX" } : Manager) ts2) t1 m0.slots :=
    transmit_run ts2 t1 m0.slots _ ⟨hen, rfl, rfl, rfl, rfl⟩ h2
  obtain ⟨hen2, hst2, hpt2, hgp2, hS2⟩ := htr
  have hfin : (loopNoRx (pairRun ({ m0 with currentState := .PAIRING_TRANSMIT, pairingStartTime := t1, isUnpairReq := false, gotPubKey := false, sentPubKey := false, gotAck := false, sentAck := false, pairingChannel := getAvailableChannel m0, pipes := m0.pipes.set 0 "CFGTX" } : Manager) ts2) t2 w2).currentState = .IDLE
      ∧ (loopNoRx (pairRun ({ m0 with currentState := .PAIRING_TRANSMIT, pairingStartTime := t1, isUnpairReq := false, gotPubKey := false, sentPubKey := false, gotAck := false, sentAck := false, pairingChannel := getAvailableChannel m0, pipes := m0.pipes.set 0 "CFGTX" } : Manager) ts2) t2 w2).slots =
        (pairRun ({ m0 with currentState := .PAIRING_TRANSMIT, pairingStartTime := t1, isUnpairReq := false, gotPubKey := false, sentPubKey := false, gotAck := false, sentAck := false, pairingChannel := getAvailableChannel m0, pipes := m0.pipes.set 0 "CFGTX" } : Manager) ts2).slots := by
    have hL : ∀ mm : Manager, mm.isEnabled = true → mm.currentState = .PAIRING_TRANSMIT →
        loopNoRx mm t2 w2 = handlePairingNoRx mm t2 w2 := by
      intro mm hmen hmst
      unfold loopNoRx
      rw [if_neg (by simp [hmen]), hmst]
    rw [hL _ hen2 hst2]
    exact transmit_timeout _ t2 w2 hst2 hgp2 (by rw [hpt2]; exact ht2)
  have hsplit : pairRun ({ m0 with currentState := .PAIRING_LISTEN, pairingStartTime := t0, isUnpairReq := false, gotPubKey := false, sentPubKey := false, gotAck := false, sentAck := false, pairingChannel := getAvailableChannel m0, pipes := m0.pipes.set 0 "CFGTX" } : Manager) (ts1 ++ ((t1, w1) :: (ts2 ++ [(t2, w2)]))) =
      loopNoRx (pairRun ({ m0 with currentState := .PAIRING_TRANSMIT, pairingStartTime := t1, isUnpairReq := false, gotPubKey := false, sentPubKey := false, gotAck := false, sentAck := false, pairingChannel := getAvailableChannel m0, pipes := m0.pipes.set 0 "CFGTX" } : Manager) ts2) t2 w2 := by
    rw [pairRun_append, hrun1]
    show pairRun (loopNoRx _ t1 w1) (ts2 ++ [(t2, w2)]) = _
    rw [hflip, pairRun_append]
    rfl
  rw [hsplit]
  exact ⟨hfin.1, by rw [hfin.2, hS2], by rw [pairRun_slots]⟩

/-- Witness for `c5_pairing_timeout`: start at t=0, listen ticks at 1 s,
flip at 5001 ms, transmit ticks at 6 s, timeout tick at 15002 ms. -/
theorem c5_pairing_timeout_witness :
    (mgrTwoPaired.isEnabled = true ∧ mgrTwoPaired.currentState = .IDLE ∧
      0 + PAIRING_LISTEN_TIME < 5001 ∧ 5001 + PAIRING_TIMEOUT < 15002) ∧
    ((startPairing mgrTwoPaired 0).2 = true
    ∧ (pairRun (startPairing mgrTwoPaired 0).1
        ([(1000, false)] ++ ((5001, false) :: ([(6000, false)] ++ [(15002, false)])))).currentState = .IDLE
    ∧ (pairRun (startPairing mgrTwoPaired 0).1
        ([(1000, false)] ++ ((5001, false) :: ([(6000, false)] ++ [(15002, false)])))).slots = mgrTwoPaired.slots
    ∧ (pairRun (startPairing mgrTwoPaired 0).1 [(100, true)]).slots = mgrTwoPaired.slots) :=
  ⟨⟨by decide, by decide, by decide, by decide⟩,
   c5_pairing_timeout mgrTwoPaired 0 5001 15002 false false
     [(1000, false)] [(6000, false)] [(100, true)] (by decide) (by decide)
     (by decide) (by decide) (by decide) (by decide)⟩

/-- C5 counterexample: a device pairing alone (startPairing at t = 0,
frameless ticks) is still in PAIRING_TRANSMIT at t = 10001 ms, i.e. more
than PAIRING_TIMEOUT (10 s) after startPairing, because the role flip at
5001 ms restarted the pairing clock. -/
theorem c5_counterexample :
    (startPairing mgrTwoPaired 0).2 = true
    ∧ (pairRun (startPairing mgrTwoPaired 0).1
        [(5001, false), (10001, false)]).currentState = MState.PAIRING_TRANSMIT
    ∧ (pairRun (startPairing mgrTwoPaired 0).1
        [(5001, false), (10001, false)]).currentState ≠ MState.IDLE
    ∧ 10001 - 0 > PAIRING_TIMEOUT := by
  decide

end RadioSpec
